import Mathlib

/-!
Verification of the production-line discrete-event simulation
(`src/event_driven_simulation.py`, plus the pieces of `src/index.py` that the
claims cite) against its natural-language specification.

Modelling conventions:
* Python floats are modelled as `ℚ`; Python ints as `ℤ` (capacities, which the
  program never validates and may be negative) or `ℕ` (counters).
* The external random source (`ValidatedRandom`, declared an external
  collaborator by the spec) and `math.log` are modelled by an `Oracle` of
  value streams: `rand n` is the value returned by the `n`-th call to
  `rng.random()`, `gauss n μ σ` the value returned by the `n`-th call to
  `rng.gauss(μ, σ)`, and `log` models `math.log`.
* `heapq.heappush`/`heappop` are embedded following CPython's `heapq`
  algorithm.  The program pushes `(tiempo, evento)` tuples; Python tuple
  comparison compares the times and, when they are equal, falls through to
  comparing the `Evento` dataclasses, which define no ordering, so the
  comparison raises `TypeError`.  That failure is modelled as `Except.error ()`.
* Runtime exceptions (`TypeError` from comparisons, `AttributeError` from a
  `None` machine item, `IndexError` from popping an empty heap) are all
  modelled as `Except.error ()`.
* Two ghost fields (`programados`, `procesados`) record the history of
  scheduled and dispatched events; no source behaviour depends on them, they
  only instrument the embedding for the statements below.
-/

namespace ProdLine

/- Batteries marks the `Rat` field operations `@[irreducible]`; re-marking
them `semireducible` lets `decide`/`rfl` evaluate the embedding on concrete
rational inputs.  This changes no definitional equality for the kernel. -/
set_option allowUnsafeReducibility true
attribute [local semireducible] Rat.mul Rat.add Rat.sub Rat.inv Rat.ofScientific

/-- `class EstadoMaquina(Enum)` from `event_driven_simulation.py`. -/
inductive EstadoMaquina where
  | OCIOSA
  | PROCESANDO
  | BLOQUEADA
  | INACTIVA_SIN_ENTRADA
deriving DecidableEq, Repr, Inhabited

/-- `@dataclass class Item` (system-entry time, current-queue-entry time,
unique id, defect flag). -/
structure Item where
  tiempo_llegada_sistema : ℚ
  tiempo_llegada_cola_actual : ℚ
  id : ℕ := 0
  defectuoso : Bool := false
deriving DecidableEq, Repr, Inhabited

/-- `@dataclass class Evento` — `data` is `None` at every call site, so the
payload is omitted.  `Evento` defines no ordering (`@dataclass` without
`order=True`), which matters for the heap tie-break behaviour below. -/
structure Evento where
  tiempo : ℚ
  tipo : String
deriving DecidableEq, Repr, Inhabited

/-- The entries the program pushes on the heap: `(tiempo, evento)` tuples. -/
abbrev Entrada := ℚ × Evento

/-- Python `<` on two `(tiempo, evento)` tuples: lexicographic, so equal times
fall through to comparing `Evento` objects, which raises `TypeError`
(modelled as `Except.error ()`). -/
def cmpEntrada (a b : Entrada) : Except Unit Bool :=
  if a.1 < b.1 then .ok true
  else if b.1 < a.1 then .ok false
  else .error ()

/-- CPython `heapq._siftdown(heap, 0, pos)` with `newitem = heap[pos]`:
walk up the parent chain while `newitem < parent`, shifting parents down,
then place `newitem`.  The extra `fuel` argument only makes the recursion
structural; every call below passes `fuel ≥ pos`, and since the position
strictly decreases each iteration the `fuel = 0` fallback is unreachable,
so the function agrees with CPython's loop at every call site. -/
def siftdownIter : ℕ → List Entrada → ℕ → Entrada → Except Unit (List Entrada)
  | _, heap, 0, newitem => .ok (heap.set 0 newitem)
  | 0, heap, pos, newitem => .ok (heap.set pos newitem)
  | fuel + 1, heap, pos, newitem =>
    let parentpos := (pos - 1) / 2
    let parent := heap.getD parentpos default
    match cmpEntrada newitem parent with
    | .error e => .error e
    | .ok true => siftdownIter fuel (heap.set pos parent) parentpos newitem
    | .ok false => .ok (heap.set pos newitem)

/-- CPython `heapq.heappush(heap, item)`: append, then sift down from the new
last position. -/
def heappush (heap : List Entrada) (item : Entrada) : Except Unit (List Entrada) :=
  siftdownIter heap.length (heap ++ [item]) heap.length item

/-- CPython `heapq._siftup(heap, pos)` with `newitem = heap[pos]`: bubble the
smaller child up until reaching a leaf, then restore with `_siftdown`.
`fuel` only makes the recursion structural; calls pass `fuel ≥ heap.length`,
which bounds the number of iterations, so the `fuel = 0` fallback is
unreachable. -/
def siftupIter : ℕ → List Entrada → ℕ → Entrada → Except Unit (List Entrada)
  | fuel, heap, pos, newitem =>
    let endpos := heap.length
    let childpos := 2 * pos + 1
    if childpos < endpos then
      match fuel with
      | 0 => .ok heap
      | fuel + 1 =>
        let rightpos := childpos + 1
        match (if rightpos < endpos then
                 cmpEntrada (heap.getD childpos default) (heap.getD rightpos default)
               else .ok true) with
        | .error e => .error e
        | .ok b =>
          let childpos := if b then childpos else rightpos
          siftupIter fuel (heap.set pos (heap.getD childpos default)) childpos newitem
    else
      siftdownIter pos (heap.set pos newitem) pos newitem

/-- CPython `heapq.heappop(heap)`: pop the last element; if the heap is still
non-empty, the root is returned and the last element is sifted up from the
root.  Popping an empty heap raises `IndexError` (`Except.error ()`). -/
def heappop (heap : List Entrada) : Except Unit (Entrada × List Entrada) :=
  match heap.getLast? with
  | none => .error ()
  | some lastelt =>
    match heap.dropLast with
    | [] => .ok (lastelt, [])
    | r0 :: rs =>
      match siftupIter (r0 :: rs).length ((r0 :: rs).set 0 lastelt) 0 lastelt with
      | .error e => .error e
      | .ok h2 => .ok (r0, h2)

/-- The external random source and `math.log`, modelled as value streams:
`rand n` is the value returned by the `n`-th call to `rng.random()`,
`gauss n μ σ` the value returned by the `n`-th call to `rng.gauss(μ, σ)`,
and `log` models `math.log`. -/
structure Oracle where
  rand : ℕ → ℚ
  gauss : ℕ → ℚ → ℚ → ℚ
  log : ℚ → ℚ

/-- The constructor arguments of `SimulacionLineaProduccion.__init__`
(the random seed is subsumed by the `Oracle`). -/
structure Params where
  sim_time : ℚ
  buffer1_capacity : ℤ
  buffer2_capacity : ℤ
  m1_media_tiempo : ℚ
  m1_std_dev_tiempo : ℚ
  m2_media_tiempo : ℚ
  m2_std_dev_tiempo : ℚ
  m3_media_tiempo : ℚ
  m3_std_dev_tiempo : ℚ
  defect_prob : ℚ
deriving DecidableEq, Repr

/-- The whole mutable state of a `SimulacionLineaProduccion` instance:
the constructor parameters, the dynamic state, and the `stats` dictionary
(one field per key).  `nRand`/`nGauss` count the calls made to the random
source; `programados`/`procesados` are ghost logs of scheduled and
dispatched events. -/
structure State where
  sim_time : ℚ
  buffer1_capacity : ℤ
  buffer2_capacity : ℤ
  m1_media_tiempo : ℚ
  m1_std_dev_tiempo : ℚ
  m2_media_tiempo : ℚ
  m2_std_dev_tiempo : ℚ
  m3_media_tiempo : ℚ
  m3_std_dev_tiempo : ℚ
  defect_prob : ℚ
  reloj : ℚ := 0
  eventos : List Entrada := []
  cola1 : List Item := []
  cola2 : List Item := []
  cola3 : List Item := []
  estado_m1 : EstadoMaquina := .OCIOSA
  estado_m2 : EstadoMaquina := .OCIOSA
  estado_m3 : EstadoMaquina := .OCIOSA
  item_en_m1 : Option Item := none
  item_en_m2 : Option Item := none
  item_en_m3 : Option Item := none
  producidos_m1 : ℕ := 0
  defectos_m1 : ℕ := 0
  caramelos_a_buffer1 : ℕ := 0
  cajas_empaquetadas_m2 : ℕ := 0
  cajas_selladas_m3 : ℕ := 0
  tiempos_sistema_caja : List ℚ := []
  wip_buffer1_data : List (ℚ × ℕ) := [(0, 0)]
  wip_buffer2_data : List (ℚ × ℕ) := [(0, 0)]
  acum_tiempo_cola1 : ℚ := 0
  acum_tiempo_cola2 : ℚ := 0
  acum_tiempo_cola3 : ℚ := 0
  ultimo_cambio_wip : ℚ := 0
  defectos_m1_tiempo : List (ℚ × ℕ) := []
  cajas_selladas_m3_tiempo : List (ℚ × ℕ) := []
  items_perdidos_buffer1 : ℕ := 0
  bloqueos_fuente_tiempo : List (ℚ × ℕ) := []
  estado_maquinas_tiempo : List (ℚ × EstadoMaquina × EstadoMaquina × EstadoMaquina) := []
  niveles_colas_tiempo : List (ℚ × ℕ × ℕ × ℕ) := []
  nRand : ℕ := 0
  nGauss : ℕ := 0
  programados : List (ℚ × String) := []
  procesados : List (ℚ × String) := []

/-- `SimulacionLineaProduccion.__init__`: store the parameters and initialise
the dynamic state and statistics.  Note that the constructor performs no
validation whatsoever on the parameters. -/
def inicial (p : Params) : State where
  sim_time := p.sim_time
  buffer1_capacity := p.buffer1_capacity
  buffer2_capacity := p.buffer2_capacity
  m1_media_tiempo := p.m1_media_tiempo
  m1_std_dev_tiempo := p.m1_std_dev_tiempo
  m2_media_tiempo := p.m2_media_tiempo
  m2_std_dev_tiempo := p.m2_std_dev_tiempo
  m3_media_tiempo := p.m3_media_tiempo
  m3_std_dev_tiempo := p.m3_std_dev_tiempo
  defect_prob := p.defect_prob

/-- `_generar_tiempo_normal`: draw `rng.gauss(media, desviacion_estandar)`
and clamp the result to be at least `0`. -/
def generar_tiempo_normal (O : Oracle) (s : State) (media desviacion_estandar : ℚ) :
    ℚ × State :=
  let tiempo_generado := O.gauss s.nGauss media desviacion_estandar
  (max 0 tiempo_generado, { s with nGauss := s.nGauss + 1 })

/-- `_generar_tiempo_exponencial`: draw `u = rng.random()`, replace an exact
zero by `1e-9`, and return `-math.log(u) * media`. -/
def generar_tiempo_exponencial (O : Oracle) (s : State) (media : ℚ) : ℚ × State :=
  let u := O.rand s.nRand
  let s := { s with nRand := s.nRand + 1 }
  let u := if u = 0 then (1 : ℚ) / 1000000000 else u
  (-(O.log u) * media, s)

/-- `_actualizar_wip`: append the current queue-1 and queue-2 depths to the
WIP time series and refresh `ultimo_cambio_wip`. -/
def actualizar_wip (s : State) : State :=
  { s with
    wip_buffer1_data := s.wip_buffer1_data ++ [(s.reloj, s.cola1.length)]
    wip_buffer2_data := s.wip_buffer2_data ++ [(s.reloj, s.cola2.length)]
    ultimo_cambio_wip := s.reloj }

/-- `_registrar_estados`: append the machine states and queue depths at the
current clock. -/
def registrar_estados (s : State) : State :=
  { s with
    estado_maquinas_tiempo :=
      s.estado_maquinas_tiempo ++ [(s.reloj, s.estado_m1, s.estado_m2, s.estado_m3)]
    niveles_colas_tiempo :=
      s.niveles_colas_tiempo ++ [(s.reloj, s.cola1.length, s.cola2.length, s.cola3.length)] }

/-- `_programar_evento`: build an `Evento` and `heapq.heappush` the
`(tiempo, evento)` tuple (the `data` payload is `None` at every call site).
The ghost log `programados` records the request. -/
def programar_evento (s : State) (tiempo : ℚ) (tipo : String) : Except Unit State :=
  match heappush s.eventos (tiempo, ⟨tiempo, tipo⟩) with
  | .error e => .error e
  | .ok h => .ok { s with eventos := h, programados := s.programados ++ [(tiempo, tipo)] }

/-- `_manejar_llegada_item_cola1`: schedule the next arrival (exponential with
the hard-coded local mean `2.0`), create the new `Item`, and either start
machine 1 on it immediately (only when machine 1 is idle *and* queue 2 is
below capacity), enqueue it on queue 1, or count it as lost. -/
def manejar_llegada_item_cola1 (O : Oracle) (s : State) : Except Unit State :=
  let media_tiempo_llegada : ℚ := 2
  let drawn := generar_tiempo_exponencial O s media_tiempo_llegada
  let tiempo_entre_llegadas := drawn.1
  let s := drawn.2
  match programar_evento s (s.reloj + tiempo_entre_llegadas) "LLEGADA_ITEM_COLA1" with
  | .error e => .error e
  | .ok s =>
    let nuevo_item : Item :=
      { tiempo_llegada_sistema := s.reloj
        tiempo_llegada_cola_actual := s.reloj
        id := s.producidos_m1 }
    if s.estado_m1 = EstadoMaquina.OCIOSA ∧ (s.cola2.length : ℤ) < s.buffer2_capacity then
      let s := { s with item_en_m1 := some nuevo_item, estado_m1 := .PROCESANDO }
      let drawn := generar_tiempo_normal O s s.m1_media_tiempo s.m1_std_dev_tiempo
      let tiempo_proceso := drawn.1
      let s := drawn.2
      match programar_evento s (s.reloj + tiempo_proceso) "FIN_PROCESO_MAQUINA1" with
      | .error e => .error e
      | .ok s => .ok (registrar_estados s)
    else
      if (s.cola1.length : ℤ) < s.buffer1_capacity then
        let s := { s with cola1 := s.cola1 ++ [nuevo_item] }
        .ok (registrar_estados (actualizar_wip s))
      else
        let s := { s with items_perdidos_buffer1 := s.items_perdidos_buffer1 + 1 }
        let s := { s with
          bloqueos_fuente_tiempo :=
            s.bloqueos_fuente_tiempo ++ [(s.reloj, s.items_perdidos_buffer1)] }
        .ok (registrar_estados s)

/-- The common tail of `_manejar_fin_proceso_maquina1`: unless machine 1 is
blocked, pull the next item from queue 1 (or go idle), then record states. -/
def fin_proceso_m1_tomar_siguiente (O : Oracle) (s : State) : Except Unit State :=
  if s.estado_m1 ≠ EstadoMaquina.BLOQUEADA then
    match s.cola1 with
    | item_de_cola1 :: resto =>
      let s := { s with
        cola1 := resto, item_en_m1 := some item_de_cola1, estado_m1 := .PROCESANDO }
      let drawn := generar_tiempo_normal O s s.m1_media_tiempo s.m1_std_dev_tiempo
      let tiempo_proceso := drawn.1
      let s := drawn.2
      match programar_evento s (s.reloj + tiempo_proceso) "FIN_PROCESO_MAQUINA1" with
      | .error e => .error e
      | .ok s => .ok (registrar_estados (actualizar_wip s))
    | [] =>
      .ok (registrar_estados { s with estado_m1 := .OCIOSA })
  else .ok (registrar_estados s)

/-- `_manejar_fin_proceso_maquina1`: take the item out of machine 1, count it
as produced, draw the defect trial (`rng.random() >= defect_prob` means the
item is good).  A good item is counted to `caramelos_a_buffer1` and then
either appended to queue 2 (possibly starting machine 2) or, when queue 2 is
full, retained with machine 1 going `BLOQUEADA` (early return, no state
recording).  A defective item is counted and discarded.  A `None` machine
item would raise `AttributeError` (`Except.error ()`). -/
def manejar_fin_proceso_maquina1 (O : Oracle) (s : State) : Except Unit State :=
  match s.item_en_m1 with
  | none => .error ()
  | some item_procesado =>
    let s := { s with item_en_m1 := none }
    let s := { s with producidos_m1 := s.producidos_m1 + 1 }
    let u := O.rand s.nRand
    let s := { s with nRand := s.nRand + 1 }
    if s.defect_prob ≤ u then
      let item_procesado := { item_procesado with defectuoso := false }
      let s := { s with caramelos_a_buffer1 := s.caramelos_a_buffer1 + 1 }
      if (s.cola2.length : ℤ) < s.buffer2_capacity then
        let item_procesado := { item_procesado with tiempo_llegada_cola_actual := s.reloj }
        let s := { s with cola2 := s.cola2 ++ [item_procesado] }
        let s := actualizar_wip s
        match (if (s.estado_m2 = EstadoMaquina.OCIOSA ∨
                   s.estado_m2 = EstadoMaquina.INACTIVA_SIN_ENTRADA) ∧
                  0 < s.cola2.length then
                 match s.cola2 with
                 | [] => .ok s
                 | item_para_m2 :: resto =>
                   let s := { s with
                     cola2 := resto, item_en_m2 := some item_para_m2,
                     estado_m2 := .PROCESANDO }
                   let drawn := generar_tiempo_normal O s s.m2_media_tiempo s.m2_std_dev_tiempo
                   let tiempo_proceso := drawn.1
                   let s := drawn.2
                   match programar_evento s (s.reloj + tiempo_proceso) "FIN_PROCESO_MAQUINA2" with
                   | .error e => .error e
                   | .ok s => .ok (actualizar_wip s)
               else .ok s : Except Unit State) with
        | .error e => .error e
        | .ok s => fin_proceso_m1_tomar_siguiente O s
      else
        .ok { s with estado_m1 := .BLOQUEADA, item_en_m1 := some item_procesado }
    else
      let item_procesado := { item_procesado with defectuoso := true }
      let s := { s with defectos_m1 := s.defectos_m1 + 1 }
      let s := { s with
        defectos_m1_tiempo := s.defectos_m1_tiempo ++ [(s.reloj, s.defectos_m1)] }
      fin_proceso_m1_tomar_siguiente O s

/-- The middle part of `_manejar_fin_proceso_maquina2`: unless machine 2 is
blocked, pull the next item from queue 2 or go `INACTIVA_SIN_ENTRADA`. -/
def fin_proceso_m2_tomar_siguiente (O : Oracle) (s : State) : Except Unit State :=
  if s.estado_m2 ≠ EstadoMaquina.BLOQUEADA then
    match s.cola2 with
    | item_de_cola2 :: resto =>
      let s := { s with
        cola2 := resto, item_en_m2 := some item_de_cola2, estado_m2 := .PROCESANDO }
      let drawn := generar_tiempo_normal O s s.m2_media_tiempo s.m2_std_dev_tiempo
      let tiempo_proceso := drawn.1
      let s := drawn.2
      match programar_evento s (s.reloj + tiempo_proceso) "FIN_PROCESO_MAQUINA2" with
      | .error e => .error e
      | .ok s => .ok (actualizar_wip s)
    | [] =>
      .ok { s with estado_m2 := .INACTIVA_SIN_ENTRADA }
  else .ok s

/-- The cascading-unblock tail of `_manejar_fin_proceso_maquina2`: if machine 1
was blocked and queue 2 gained room, move its retained item into queue 2 and
restart machine 1 from queue 1 (or leave it idle). -/
def fin_proceso_m2_desbloquear_m1 (O : Oracle) (s : State) : Except Unit State :=
  if s.estado_m1 = EstadoMaquina.BLOQUEADA ∧ (s.cola2.length : ℤ) < s.buffer2_capacity then
    match s.item_en_m1 with
    | none => .error ()
    | some item_bloqueado_m1 =>
      let s := { s with item_en_m1 := none }
      let item_bloqueado_m1 := { item_bloqueado_m1 with tiempo_llegada_cola_actual := s.reloj }
      let s := { s with cola2 := s.cola2 ++ [item_bloqueado_m1] }
      let s := actualizar_wip s
      let s := { s with estado_m1 := .OCIOSA }
      match s.cola1 with
      | item_de_cola1 :: resto =>
        let s := { s with
          cola1 := resto, item_en_m1 := some item_de_cola1, estado_m1 := .PROCESANDO }
        let drawn := generar_tiempo_normal O s s.m1_media_tiempo s.m1_std_dev_tiempo
        let tiempo_proceso_m1 := drawn.1
        let s := drawn.2
        match programar_evento s (s.reloj + tiempo_proceso_m1) "FIN_PROCESO_MAQUINA1" with
        | .error e => .error e
        | .ok s => .ok (actualizar_wip s)
      | [] => .ok s
  else .ok s

/-- `_manejar_fin_proceso_maquina2`: count the packed box; append it to
queue 3 when there is room (the queue-3 capacity placeholder reuses
`buffer2_capacity`), possibly starting machine 3; otherwise block machine 2
retaining the box.  Then pull the next queue-2 item unless blocked, run the
machine-1 cascading unblock, and record states. -/
def manejar_fin_proceso_maquina2 (O : Oracle) (s : State) : Except Unit State :=
  match s.item_en_m2 with
  | none => .error ()
  | some item_procesado =>
    let s := { s with item_en_m2 := none }
    let s := { s with cajas_empaquetadas_m2 := s.cajas_empaquetadas_m2 + 1 }
    let buffer3_simulated_capacity := s.buffer2_capacity
    match (if (s.cola3.length : ℤ) < buffer3_simulated_capacity then
             let item_procesado := { item_procesado with tiempo_llegada_cola_actual := s.reloj }
             let s := { s with cola3 := s.cola3 ++ [item_procesado] }
             if (s.estado_m3 = EstadoMaquina.OCIOSA ∨
                 s.estado_m3 = EstadoMaquina.INACTIVA_SIN_ENTRADA) ∧
                0 < s.cola3.length then
               match s.cola3 with
               | [] => .ok s
               | item_para_m3 :: resto =>
                 let s := { s with
                   cola3 := resto, item_en_m3 := some item_para_m3, estado_m3 := .PROCESANDO }
                 let drawn := generar_tiempo_normal O s s.m3_media_tiempo s.m3_std_dev_tiempo
                 let tiempo_proceso := drawn.1
                 let s := drawn.2
                 programar_evento s (s.reloj + tiempo_proceso) "FIN_PROCESO_MAQUINA3"
             else .ok s
           else
             .ok { s with estado_m2 := .BLOQUEADA, item_en_m2 := some item_procesado } :
             Except Unit State) with
    | .error e => .error e
    | .ok s =>
      match fin_proceso_m2_tomar_siguiente O s with
      | .error e => .error e
      | .ok s =>
        match fin_proceso_m2_desbloquear_m1 O s with
        | .error e => .error e
        | .ok s => .ok (registrar_estados s)

/-- The cascading-unblock tail of `_manejar_fin_proceso_maquina3`: if machine 2
was blocked and queue 3 gained room, move its retained box into queue 3 and
restart machine 2 from queue 2 (or go `INACTIVA_SIN_ENTRADA`). -/
def fin_proceso_m3_desbloquear_m2 (O : Oracle) (s : State) : Except Unit State :=
  let buffer3_simulated_capacity := s.buffer2_capacity
  if s.estado_m2 = EstadoMaquina.BLOQUEADA ∧
     (s.cola3.length : ℤ) < buffer3_simulated_capacity then
    match s.item_en_m2 with
    | none => .error ()
    | some item_bloqueado_m2 =>
      let s := { s with item_en_m2 := none }
      let item_bloqueado_m2 := { item_bloqueado_m2 with tiempo_llegada_cola_actual := s.reloj }
      let s := { s with cola3 := s.cola3 ++ [item_bloqueado_m2] }
      let s := { s with estado_m2 := .OCIOSA }
      match s.cola2 with
      | item_de_cola2 :: resto =>
        let s := { s with
          cola2 := resto, item_en_m2 := some item_de_cola2, estado_m2 := .PROCESANDO }
        let drawn := generar_tiempo_normal O s s.m2_media_tiempo s.m2_std_dev_tiempo
        let tiempo_proceso_m2 := drawn.1
        let s := drawn.2
        match programar_evento s (s.reloj + tiempo_proceso_m2) "FIN_PROCESO_MAQUINA2" with
        | .error e => .error e
        | .ok s => .ok (actualizar_wip s)
      | [] => .ok { s with estado_m2 := .INACTIVA_SIN_ENTRADA }
  else .ok s

/-- `_manejar_fin_proceso_maquina3`: count the sealed box, record its system
time `reloj - tiempo_llegada_sistema`, pull the next box from queue 3 (or go
`INACTIVA_SIN_ENTRADA`), run the machine-2 cascading unblock, and record
states. -/
def manejar_fin_proceso_maquina3 (O : Oracle) (s : State) : Except Unit State :=
  match s.item_en_m3 with
  | none => .error ()
  | some item_terminado =>
    let s := { s with item_en_m3 := none }
    let s := { s with cajas_selladas_m3 := s.cajas_selladas_m3 + 1 }
    let tiempo_en_sistema := s.reloj - item_terminado.tiempo_llegada_sistema
    let s := { s with tiempos_sistema_caja := s.tiempos_sistema_caja ++ [tiempo_en_sistema] }
    let s := { s with
      cajas_selladas_m3_tiempo := s.cajas_selladas_m3_tiempo ++ [(s.reloj, s.cajas_selladas_m3)] }
    match (match s.cola3 with
           | item_de_cola3 :: resto =>
             let s := { s with
               cola3 := resto, item_en_m3 := some item_de_cola3, estado_m3 := .PROCESANDO }
             let drawn := generar_tiempo_normal O s s.m3_media_tiempo s.m3_std_dev_tiempo
             let tiempo_proceso := drawn.1
             let s := drawn.2
             programar_evento s (s.reloj + tiempo_proceso) "FIN_PROCESO_MAQUINA3"
           | [] => .ok { s with estado_m3 := .INACTIVA_SIN_ENTRADA } :
           Except Unit State) with
    | .error e => .error e
    | .ok s =>
      match fin_proceso_m3_desbloquear_m2 O s with
      | .error e => .error e
      | .ok s => .ok (registrar_estados s)

/-- The dispatch of `ejecutar_simulacion`'s event loop body: route the popped
event to its handler; unknown event kinds fall through with no effect. -/
def despachar (O : Oracle) (tipo : String) (s : State) : Except Unit State :=
  if tipo = "LLEGADA_ITEM_COLA1" then manejar_llegada_item_cola1 O s
  else if tipo = "FIN_PROCESO_MAQUINA1" then manejar_fin_proceso_maquina1 O s
  else if tipo = "FIN_PROCESO_MAQUINA2" then manejar_fin_proceso_maquina2 O s
  else if tipo = "FIN_PROCESO_MAQUINA3" then manejar_fin_proceso_maquina3 O s
  else .ok s

/-- Result of one iteration of the main `while` loop: either the loop
continues with the new state, or it has terminated (condition false, or
`break` on an event past the horizon). -/
inductive Paso where
  | next (s : State)
  | stop (s : State)

/-- One iteration of `while self.reloj < self.sim_time and self.eventos`:
pop the minimum event, `break` (discarding it) if its time exceeds the
horizon, otherwise advance the clock and dispatch.  The ghost log
`procesados` records each dispatched event. -/
def paso_loop (O : Oracle) (s : State) : Except Unit Paso :=
  if s.reloj < s.sim_time ∧ s.eventos ≠ [] then
    match heappop s.eventos with
    | .error e => .error e
    | .ok (popped, resto) =>
      let tiempo_evento := popped.1
      let evento_actual := popped.2
      let s := { s with eventos := resto }
      if s.sim_time < tiempo_evento then .ok (.stop s)
      else
        let s := { s with
          reloj := tiempo_evento
          procesados := s.procesados ++ [(tiempo_evento, evento_actual.tipo)] }
        match despachar O evento_actual.tipo s with
        | .error e => .error e
        | .ok s => .ok (.next s)
  else .ok (.stop s)

/-- Iterate `paso_loop` for at most `fuel` events.  The boolean is `true`
when the loop terminated by itself within the allotted fuel. -/
def correr_loop (O : Oracle) : ℕ → State → Except Unit (State × Bool)
  | 0, s => .ok (s, false)
  | fuel + 1, s =>
    match paso_loop O s with
    | .error e => .error e
    | .ok (.stop s) => .ok (s, true)
    | .ok (.next s) => correr_loop O fuel s

/-- `ejecutar_simulacion` up to the end of the event loop: schedule the
initial arrival at time `0.0` and run the loop (bounded by `fuel` events). -/
def ejecutar_simulacion (O : Oracle) (p : Params) (fuel : ℕ) :
    Except Unit (State × Bool) :=
  match programar_evento (inicial p) 0 "LLEGADA_ITEM_COLA1" with
  | .error e => .error e
  | .ok s => correr_loop O fuel s

/-- The summation loop of `calcular_wip_promedio`: for each pair of
consecutive samples `(t1, w1), (t2, _)` contribute `w1 * (t2 - t1)`. -/
def area_total : List (ℚ × ℕ) → ℚ
  | (t1, w1) :: (t2, w2) :: rest => (w1 : ℚ) * (t2 - t1) + area_total ((t2, w2) :: rest)
  | _ => 0

/-- `calcular_wip_promedio` (nested in `ejecutar_simulacion`): return `0` for
empty data or a zero horizon; otherwise extend the last sample's level to
`tiempo_total_simulacion` when it ends earlier, integrate rectangles, and
divide by the horizon (returning `0` for a non-positive horizon). -/
def calcular_wip_promedio (wip_data : List (ℚ × ℕ)) (tiempo_total_simulacion : ℚ) : ℚ :=
  match wip_data.getLast? with
  | none => 0
  | some (last_time, last_wip_level) =>
    if tiempo_total_simulacion = 0 then 0
    else
      let data :=
        if last_time < tiempo_total_simulacion then
          wip_data ++ [(tiempo_total_simulacion, last_wip_level)]
        else wip_data
      if 0 < tiempo_total_simulacion then area_total data / tiempo_total_simulacion
      else 0

/-- The summation loop of `calculate_time_weighted_average` in `src/index.py`:
each sample's level is held until the next sample's time, the last sample's
until `total_duration` (zero if it lies beyond), with negative durations
clamped to zero. -/
def weighted_sum_index : List (ℚ × ℕ) → ℚ → ℚ
  | [], _ => 0
  | (current_time, current_level) :: rest, total_duration =>
    let dur := match rest with
      | (next_time, _) :: _ => next_time - current_time
      | [] => if current_time ≤ total_duration then total_duration - current_time else 0
    let dur := if dur < 0 then 0 else dur
    (current_level : ℚ) * dur + weighted_sum_index rest total_duration

/-- `calculate_time_weighted_average` from `src/index.py`. -/
def calculate_time_weighted_average (data_points : List (ℚ × ℕ)) (total_duration : ℚ) : ℚ :=
  if data_points = [] ∨ total_duration = 0 then 0
  else
    if 0 < total_duration then weighted_sum_index data_points total_duration / total_duration
    else 0

/-- The averaging formula exactly as the spec words it: extend the final
sample's level to `total_sim_time`, contribute `level1 * (t2 - t1)` for each
pair of consecutive samples of the extended series, divide by
`total_sim_time`.  (Stated from the spec, for comparison with the two source
implementations.) -/
def promedio_ponderado_spec (samples : List (ℚ × ℕ)) (total_sim_time : ℚ) : ℚ :=
  match samples.getLast? with
  | none => 0
  | some (_, last_level) =>
    let ext := samples ++ [(total_sim_time, last_level)]
    ((ext.zip ext.tail).foldr
      (fun q acc => (q.1.2 : ℚ) * (q.2.1 - q.1.1) + acc) 0) / total_sim_time

/-- The box record `maquina2` in `src/index.py` puts into Buffer2:
`{'id': caja_id, 'entrada_buffer2': env.now}`.  The record carries no
constituent-unit timestamps at all — only the Buffer2-entry time. -/
structure CajaIndex where
  id : ℕ
  entrada_buffer2 : ℚ
deriving DecidableEq, Repr

/-- `maquina2`'s put in `src/index.py`: stamp the box with the current clock
as its Buffer2-entry time. -/
def maquina2_caja (caja_id : ℕ) (now : ℚ) : CajaIndex :=
  { id := caja_id, entrada_buffer2 := now }

/-- The two statistics the sealing step of `maquina3` updates. -/
structure StatsIndex where
  cajas_selladas_m3 : ℕ
  tiempos_sistema_caja : List ℚ
deriving DecidableEq, Repr

/-- The sealing step of `maquina3` in `src/index.py`: increment the sealed
counter and record `tiempo_en_sistema = env.now - caja_data['entrada_buffer2']`
— the time since the box entered Buffer2. -/
def maquina3_sellar (now : ℚ) (caja : CajaIndex) (st : StatsIndex) : StatsIndex :=
  { st with
    cajas_selladas_m3 := st.cajas_selladas_m3 + 1
    tiempos_sistema_caja := st.tiempos_sistema_caja ++ [now - caja.entrada_buffer2] }

/-- The defect decision of `maquina1` in `src/index.py`, line 60: the unit is
good exactly when `rt_instance.random() > defect_prob_param`. -/
def index_es_bueno (u defect_prob : ℚ) : Bool := defect_prob < u

/-- The defect decision of `_manejar_fin_proceso_maquina1` in
`src/event_driven_simulation.py`, line 234: the item is good exactly when
`rng.random() >= defect_prob`. -/
def driven_es_bueno (u defect_prob : ℚ) : Bool := defect_prob ≤ u

/-- The standard binary-heap ordering on the scheduled times of the stored
entries: every non-root entry's time is at least its parent's time.  This is
the invariant `heapq` maintains; only the times matter because ties error
out before ever being stored (see `cmpEntrada`). -/
def HeapPropiedad (l : List Entrada) : Prop :=
  ∀ i : Fin l.length,
    0 < i.1 → (l.getD ((i.1 - 1) / 2) default).1 ≤ (l.getD i.1 default).1

instance decidableHeapPropiedad (l : List Entrada) : Decidable (HeapPropiedad l) :=
  inferInstanceAs (Decidable (∀ i : Fin l.length,
    0 < i.1 → (l.getD ((i.1 - 1) / 2) default).1 ≤ (l.getD i.1 default).1))

/-! Concrete oracles, parameters and states used to instantiate the theorems
below.  `oraculoBase` makes every `rng.random()` call return `9/10`, every
`rng.gauss` call return `-1` (so every processing time clamps to `0`), and
`math.log` return `-10` (so consecutive arrivals are `20` apart). -/

/-- A deterministic oracle: uniform draws `9/10`, Gaussian draws `-1`
(clamped to `0` processing times), `log = -10` (arrivals `20` apart). -/
def oraculoBase : Oracle where
  rand := fun _ => 9/10
  gauss := fun _ _ _ => -1
  log := fun _ => -10

/-- Like `oraculoBase` but every uniform draw returns exactly `1/2`. -/
def oraculoMitad : Oracle where
  rand := fun _ => 1/2
  gauss := fun _ _ _ => -1
  log := fun _ => -10

/-- A benign base configuration. -/
def paramsBase : Params where
  sim_time := 5
  buffer1_capacity := 10
  buffer2_capacity := 10
  m1_media_tiempo := 1
  m1_std_dev_tiempo := 1
  m2_media_tiempo := 1
  m2_std_dev_tiempo := 1
  m3_media_tiempo := 1
  m3_std_dev_tiempo := 1
  defect_prob := 1/2

/-- `paramsBase` with horizon `0`. -/
def paramsHorizonteCero : Params := { paramsBase with sim_time := 0 }

/-- `paramsBase` with a zero-capacity queue 2 (and queue-1 capacity 5). -/
def paramsCola2SinCapacidad : Params :=
  { paramsBase with buffer2_capacity := 0, buffer1_capacity := 5 }

/-- An invalid configuration: zero mean processing time for machine 1 and a
negative queue-1 capacity. -/
def paramsInvalidos : Params :=
  { paramsBase with buffer1_capacity := -5, buffer2_capacity := 3,
                    m1_media_tiempo := 0, sim_time := 10 }

/-- A state in which machine 1 is processing an item that entered at time 0. -/
def estadoFinM1 : State :=
  { inicial paramsBase with
    estado_m1 := .PROCESANDO
    item_en_m1 := some { tiempo_llegada_sistema := 0, tiempo_llegada_cola_actual := 0 } }

/-- A state at clock 7 in which machine 3 is sealing a box whose (single)
unit entered the system at time 3 and its current queue at time 5. -/
def estadoFinM3 : State :=
  { inicial paramsBase with
    reloj := 7
    estado_m3 := .PROCESANDO
    item_en_m3 := some { tiempo_llegada_sistema := 3, tiempo_llegada_cola_actual := 5 } }

/-- The state produced by handling the machine-3 completion at `estadoFinM3`. -/
def estadoTrasFinM3 : State :=
  ((manejar_fin_proceso_maquina3 oraculoBase estadoFinM3).toOption).getD (inicial paramsBase)

/-- The state right after `ejecutar_simulacion` schedules the initial arrival
(on `paramsBase`). -/
def estadoInicialBase : State :=
  { inicial paramsBase with
    eventos := [((0 : ℚ), ⟨0, "LLEGADA_ITEM_COLA1"⟩)]
    programados := [((0 : ℚ), "LLEGADA_ITEM_COLA1")] }

/-- The state produced by handling an arrival at `inicial paramsBase`
(machine 1 idle, queue 2 empty). -/
def estadoTrasLlegadaBase : State :=
  ((manejar_llegada_item_cola1 oraculoBase (inicial paramsBase)).toOption).getD
    (inicial paramsBase)

/-- Machine 1 busy and a zero-capacity queue 1: the configuration of the
zero-capacity boundary case. -/
def estadoCola1Llena : State :=
  { inicial { paramsBase with buffer1_capacity := 0 } with estado_m1 := .PROCESANDO }

/-- The state produced by handling an arrival at `estadoCola1Llena`. -/
def estadoTrasPerdida : State :=
  ((manejar_llegada_item_cola1 oraculoBase estadoCola1Llena).toOption).getD (inicial paramsBase)

/-- The state right after the initial arrival is scheduled on the invalid
configuration `paramsInvalidos`. -/
def estadoArranqueInvalido : State :=
  { inicial paramsInvalidos with
    eventos := [((0 : ℚ), ⟨0, "LLEGADA_ITEM_COLA1"⟩)]
    programados := [((0 : ℚ), "LLEGADA_ITEM_COLA1")] }

/-- The state produced by the first loop iteration on the invalid
configuration: the arrival at time `0` is popped and handled. -/
def estadoTrasPasoInvalido : State :=
  match paso_loop oraculoBase estadoArranqueInvalido with
  | .ok (.next s) => s
  | _ => inicial paramsInvalidos

/-- The state produced by handling the machine-1 completion at `estadoFinM1`
with every uniform draw equal to `9/10` (a good item). -/
def estadoTrasFinM1 : State :=
  ((manejar_fin_proceso_maquina1 oraculoBase estadoFinM1).toOption).getD (inicial paramsBase)

/-! The five states traversed by the run of `C1_caja_de_un_solo_caramelo`:
arrival at time 0, Stage 1 done at 0 (good), Stage 2 done at 0, Stage 3 done
at 0 (one box sealed from the single good unit), and the `break` on the next
arrival at time 20 > horizon 5.  Processing times are 0 because every
Gaussian draw is `-1`, clamped to `0`. -/

/-- The single unit flowing through the `C1` run. -/
def itemCero : Item :=
  { tiempo_llegada_sistema := 0, tiempo_llegada_cola_actual := 0, id := 0, defectuoso := false }

/-- The pending next arrival at time `20` in the `C1` run. -/
def entradaLlegada20 : Entrada := ((20 : ℚ), ⟨20, "LLEGADA_ITEM_COLA1"⟩)

/-- `C1` run, after the arrival at time 0. -/
def pasoC1a : State :=
  { inicial paramsBase with
    eventos := [((0 : ℚ), ⟨0, "FIN_PROCESO_MAQUINA1"⟩), entradaLlegada20]
    estado_m1 := .PROCESANDO
    item_en_m1 := some itemCero
    nRand := 1, nGauss := 1
    programados := [(0, "LLEGADA_ITEM_COLA1"), (20, "LLEGADA_ITEM_COLA1"),
                    (0, "FIN_PROCESO_MAQUINA1")]
    procesados := [(0, "LLEGADA_ITEM_COLA1")]
    estado_maquinas_tiempo := [(0, .PROCESANDO, .OCIOSA, .OCIOSA)]
    niveles_colas_tiempo := [(0, 0, 0, 0)] }

/-- `C1` run, after Stage 1 finishes the (good) unit at time 0. -/
def pasoC1b : State :=
  { pasoC1a with
    eventos := [((0 : ℚ), ⟨0, "FIN_PROCESO_MAQUINA2"⟩), entradaLlegada20]
    estado_m1 := .OCIOSA
    estado_m2 := .PROCESANDO
    item_en_m1 := none
    item_en_m2 := some itemCero
    producidos_m1 := 1
    caramelos_a_buffer1 := 1
    wip_buffer1_data := [(0, 0), (0, 0), (0, 0)]
    wip_buffer2_data := [(0, 0), (0, 1), (0, 0)]
    nRand := 2, nGauss := 2
    programados := pasoC1a.programados ++ [(0, "FIN_PROCESO_MAQUINA2")]
    procesados := pasoC1a.procesados ++ [(0, "FIN_PROCESO_MAQUINA1")]
    estado_maquinas_tiempo :=
      pasoC1a.estado_maquinas_tiempo ++ [(0, .OCIOSA, .PROCESANDO, .OCIOSA)]
    niveles_colas_tiempo := pasoC1a.niveles_colas_tiempo ++ [(0, 0, 0, 0)] }

/-- `C1` run, after Stage 2 packs the single-unit "caja" at time 0. -/
def pasoC1c : State :=
  { pasoC1b with
    eventos := [((0 : ℚ), ⟨0, "FIN_PROCESO_MAQUINA3"⟩), entradaLlegada20]
    estado_m2 := .INACTIVA_SIN_ENTRADA
    estado_m3 := .PROCESANDO
    item_en_m2 := none
    item_en_m3 := some itemCero
    cajas_empaquetadas_m2 := 1
    nGauss := 3
    programados := pasoC1b.programados ++ [(0, "FIN_PROCESO_MAQUINA3")]
    procesados := pasoC1b.procesados ++ [(0, "FIN_PROCESO_MAQUINA2")]
    estado_maquinas_tiempo :=
      pasoC1b.estado_maquinas_tiempo ++ [(0, .OCIOSA, .INACTIVA_SIN_ENTRADA, .PROCESANDO)]
    niveles_colas_tiempo := pasoC1b.niveles_colas_tiempo ++ [(0, 0, 0, 0)] }

/-- `C1` run, after Stage 3 seals the single-unit "caja" at time 0. -/
def pasoC1d : State :=
  { pasoC1c with
    eventos := [entradaLlegada20]
    estado_m3 := .INACTIVA_SIN_ENTRADA
    item_en_m3 := none
    cajas_selladas_m3 := 1
    tiempos_sistema_caja := [0]
    cajas_selladas_m3_tiempo := [(0, 1)]
    procesados := pasoC1c.procesados ++ [(0, "FIN_PROCESO_MAQUINA3")]
    estado_maquinas_tiempo :=
      pasoC1c.estado_maquinas_tiempo ++
        [(0, .OCIOSA, .INACTIVA_SIN_ENTRADA, .INACTIVA_SIN_ENTRADA)]
    niveles_colas_tiempo := pasoC1c.niveles_colas_tiempo ++ [(0, 0, 0, 0)] }

/-- `C1` run, final state: the arrival at time `20 > 5` is popped, discarded,
and the loop breaks. -/
def pasoC1e : State := { pasoC1d with eventos := [] }

/-- The fields of the state that stay untouched across the operations the
invariants below track: the horizon parameter, the ghost dispatch log, and
the three machine-1 production counters. -/
def Preserva (s s2 : State) : Prop :=
  s2.sim_time = s.sim_time ∧ s2.procesados = s.procesados ∧
  s2.producidos_m1 = s.producidos_m1 ∧ s2.defectos_m1 = s.defectos_m1 ∧
  s2.caramelos_a_buffer1 = s.caramelos_a_buffer1

/-! ## Helper lemmas -/

theorem programar_evento_ok {s : State} {t : ℚ} {k : String} {s2 : State}
    (h : programar_evento s t k = .ok s2) :
    ∃ h2, heappush s.eventos (t, ⟨t, k⟩) = .ok h2 ∧
      s2 = { s with eventos := h2, programados := s.programados ++ [(t, k)] } := by
  unfold programar_evento at h
  split at h
  · exact absurd h (by simp)
  · rename_i h2 heq
    cases h
    exact ⟨h2, heq, rfl⟩

theorem generar_exponencial_estado (O : Oracle) (s : State) (m : ℚ) :
    (generar_tiempo_exponencial O s m).2 = { s with nRand := s.nRand + 1 } := rfl

theorem generar_normal_estado (O : Oracle) (s : State) (m d : ℚ) :
    (generar_tiempo_normal O s m d).2 = { s with nGauss := s.nGauss + 1 } := rfl

theorem generar_normal_valor (O : Oracle) (s : State) (m d : ℚ) :
    (generar_tiempo_normal O s m d).1 = max 0 (O.gauss s.nGauss m d) := rfl

theorem llegada_preserva {O : Oracle} {s s2 : State}
    (h : manejar_llegada_item_cola1 O s = .ok s2) : Preserva s s2 := by
  simp only [manejar_llegada_item_cola1, generar_exponencial_estado,
    generar_normal_estado] at h
  split at h
  next => exact absurd h (by simp)
  next s1 heq =>
    obtain ⟨h2, -, rfl⟩ := programar_evento_ok heq
    split at h
    next =>
      split at h
      next => exact absurd h (by simp)
      next s3 heq2 =>
        obtain ⟨h3, -, rfl⟩ := programar_evento_ok heq2
        cases h
        exact ⟨rfl, rfl, rfl, rfl, rfl⟩
    next =>
      split at h
      next =>
        cases h
        exact ⟨rfl, rfl, rfl, rfl, rfl⟩
      next =>
        cases h
        exact ⟨rfl, rfl, rfl, rfl, rfl⟩

theorem tomar_siguiente_m1_preserva {O : Oracle} {s s2 : State}
    (h : fin_proceso_m1_tomar_siguiente O s = .ok s2) : Preserva s s2 := by
  simp only [fin_proceso_m1_tomar_siguiente, generar_normal_estado] at h
  split at h
  next =>
    split at h
    next =>
      split at h
      next => exact absurd h (by simp)
      next s3 heq =>
        obtain ⟨h3, -, rfl⟩ := programar_evento_ok heq
        cases h
        exact ⟨rfl, rfl, rfl, rfl, rfl⟩
    next =>
      cases h
      exact ⟨rfl, rfl, rfl, rfl, rfl⟩
  next =>
    cases h
    exact ⟨rfl, rfl, rfl, rfl, rfl⟩

theorem fin1_contadores {O : Oracle} {s s2 : State}
    (h : manejar_fin_proceso_maquina1 O s = .ok s2) :
    s2.sim_time = s.sim_time ∧ s2.procesados = s.procesados ∧
    s2.producidos_m1 = s.producidos_m1 + 1 ∧
    s2.defectos_m1 + s2.caramelos_a_buffer1 =
      s.defectos_m1 + s.caramelos_a_buffer1 + 1 := by
  simp only [manejar_fin_proceso_maquina1, generar_normal_estado] at h
  split at h
  next => exact absurd h (by simp)
  next it hit =>
    split at h
    next =>
      -- good item
      split at h
      next =>
        -- queue 2 has room
        split at h
        next e hmid => exact absurd h (by simp)
        next s3 hmid =>
          -- the optional machine-2 start succeeded with s3
          obtain ⟨e1, e2, e3, e4, e5⟩ := tomar_siguiente_m1_preserva h
          split at hmid
          next =>
            -- machine 2 idle or starved: dequeue and start it
            split at hmid
            next =>
              cases hmid
              exact ⟨e1, e2, e3, by rw [e4, e5]; rfl⟩
            next it2 resto hcola =>
              split at hmid
              next => exact absurd hmid (by simp)
              next s4 heq =>
                obtain ⟨h4, -, rfl⟩ := programar_evento_ok heq
                cases hmid
                exact ⟨e1, e2, e3, by rw [e4, e5]; rfl⟩
          next =>
            cases hmid
            exact ⟨e1, e2, e3, by rw [e4, e5]; rfl⟩
      next =>
        -- queue 2 full: machine 1 blocks retaining the item
        cases h
        exact ⟨rfl, rfl, rfl, rfl⟩
    next =>
      -- defective item
      obtain ⟨e1, e2, e3, e4, e5⟩ := tomar_siguiente_m1_preserva h
      refine ⟨e1, e2, e3, ?_⟩
      rw [e4, e5]
      show s.defectos_m1 + 1 + s.caramelos_a_buffer1 =
        s.defectos_m1 + s.caramelos_a_buffer1 + 1
      omega

theorem preserva_trans {a b c : State} (h1 : Preserva a b) (h2 : Preserva b c) :
    Preserva a c := by
  obtain ⟨x1, x2, x3, x4, x5⟩ := h1
  obtain ⟨y1, y2, y3, y4, y5⟩ := h2
  exact ⟨y1.trans x1, y2.trans x2, y3.trans x3, y4.trans x4, y5.trans x5⟩

theorem tomar_siguiente_m2_preserva {O : Oracle} {s s2 : State}
    (h : fin_proceso_m2_tomar_siguiente O s = .ok s2) : Preserva s s2 := by
  simp only [fin_proceso_m2_tomar_siguiente, generar_normal_estado] at h
  split at h
  next =>
    split at h
    next =>
      split at h
      next => exact absurd h (by simp)
      next s3 heq =>
        obtain ⟨h3, -, rfl⟩ := programar_evento_ok heq
        cases h
        exact ⟨rfl, rfl, rfl, rfl, rfl⟩
    next =>
      cases h
      exact ⟨rfl, rfl, rfl, rfl, rfl⟩
  next =>
    cases h
    exact ⟨rfl, rfl, rfl, rfl, rfl⟩

theorem desbloquear_m1_preserva {O : Oracle} {s s2 : State}
    (h : fin_proceso_m2_desbloquear_m1 O s = .ok s2) : Preserva s s2 := by
  simp only [fin_proceso_m2_desbloquear_m1, generar_normal_estado] at h
  split at h
  next =>
    split at h
    next => exact absurd h (by simp)
    next it hit =>
      split at h
      next it2 resto hcola =>
        split at h
        next => exact absurd h (by simp)
        next s3 heq =>
          obtain ⟨h3, -, rfl⟩ := programar_evento_ok heq
          cases h
          exact ⟨rfl, rfl, rfl, rfl, rfl⟩
      next =>
        cases h
        exact ⟨rfl, rfl, rfl, rfl, rfl⟩
  next =>
    cases h
    exact ⟨rfl, rfl, rfl, rfl, rfl⟩

theorem fin2_preserva {O : Oracle} {s s2 : State}
    (h : manejar_fin_proceso_maquina2 O s = .ok s2) : Preserva s s2 := by
  simp only [manejar_fin_proceso_maquina2, generar_normal_estado] at h
  split at h
  next => exact absurd h (by simp)
  next it hit =>
    split at h
    next e hmid => exact absurd h (by simp)
    next s3 hmid =>
      split at h
      next => exact absurd h (by simp)
      next s4 heq4 =>
        split at h
        next => exact absurd h (by simp)
        next s5 heq5 =>
          cases h
          have P34 := tomar_siguiente_m2_preserva heq4
          have P45 := desbloquear_m1_preserva heq5
          have P03 : Preserva s s3 := by
            split at hmid
            next =>
              split at hmid
              next =>
                split at hmid
                next =>
                  cases hmid
                  exact ⟨rfl, rfl, rfl, rfl, rfl⟩
                next it3 resto hcola =>
                  obtain ⟨h6, -, rfl⟩ := programar_evento_ok hmid
                  exact ⟨rfl, rfl, rfl, rfl, rfl⟩
              next =>
                cases hmid
                exact ⟨rfl, rfl, rfl, rfl, rfl⟩
            next =>
              cases hmid
              exact ⟨rfl, rfl, rfl, rfl, rfl⟩
          have P5r : Preserva s5 (registrar_estados s5) := ⟨rfl, rfl, rfl, rfl, rfl⟩
          exact preserva_trans (preserva_trans (preserva_trans P03 P34) P45) P5r

theorem desbloquear_m2_preserva {O : Oracle} {s s2 : State}
    (h : fin_proceso_m3_desbloquear_m2 O s = .ok s2) :
    Preserva s s2 ∧ s2.tiempos_sistema_caja = s.tiempos_sistema_caja := by
  simp only [fin_proceso_m3_desbloquear_m2, generar_normal_estado] at h
  split at h
  next =>
    split at h
    next => exact absurd h (by simp)
    next it hit =>
      split at h
      next it2 resto hcola =>
        split at h
        next => exact absurd h (by simp)
        next s3 heq =>
          obtain ⟨h3, -, rfl⟩ := programar_evento_ok heq
          cases h
          exact ⟨⟨rfl, rfl, rfl, rfl, rfl⟩, rfl⟩
      next =>
        cases h
        exact ⟨⟨rfl, rfl, rfl, rfl, rfl⟩, rfl⟩
  next =>
    cases h
    exact ⟨⟨rfl, rfl, rfl, rfl, rfl⟩, rfl⟩

theorem fin3_preserva {O : Oracle} {s s2 : State}
    (h : manejar_fin_proceso_maquina3 O s = .ok s2) : Preserva s s2 := by
  simp only [manejar_fin_proceso_maquina3, generar_normal_estado] at h
  split at h
  next => exact absurd h (by simp)
  next it hit =>
    split at h
    next e hmid => exact absurd h (by simp)
    next s3 hmid =>
      split at h
      next => exact absurd h (by simp)
      next s4 heq4 =>
        cases h
        have P34 := (desbloquear_m2_preserva heq4).1
        have P03 : Preserva s s3 := by
          split at hmid
          next it3 resto hcola =>
            obtain ⟨h6, -, rfl⟩ := programar_evento_ok hmid
            exact ⟨rfl, rfl, rfl, rfl, rfl⟩
          next =>
            cases hmid
            exact ⟨rfl, rfl, rfl, rfl, rfl⟩
        have P4r : Preserva s4 (registrar_estados s4) := ⟨rfl, rfl, rfl, rfl, rfl⟩
        exact preserva_trans (preserva_trans P03 P34) P4r

theorem despachar_inv {O : Oracle} {tipo : String} {s s2 : State}
    (h : despachar O tipo s = .ok s2) :
    s2.sim_time = s.sim_time ∧ s2.procesados = s.procesados ∧
    (s.producidos_m1 = s.defectos_m1 + s.caramelos_a_buffer1 →
      s2.producidos_m1 = s2.defectos_m1 + s2.caramelos_a_buffer1) := by
  unfold despachar at h
  split at h
  next =>
    obtain ⟨e1, e2, e3, e4, e5⟩ := llegada_preserva h
    exact ⟨e1, e2, fun hi => by rw [e3, e4, e5]; exact hi⟩
  next =>
    split at h
    next =>
      obtain ⟨e1, e2, e3, e4⟩ := fin1_contadores h
      exact ⟨e1, e2, fun hi => by omega⟩
    next =>
      split at h
      next =>
        obtain ⟨e1, e2, e3, e4, e5⟩ := fin2_preserva h
        exact ⟨e1, e2, fun hi => by rw [e3, e4, e5]; exact hi⟩
      next =>
        split at h
        next =>
          obtain ⟨e1, e2, e3, e4, e5⟩ := fin3_preserva h
          exact ⟨e1, e2, fun hi => by rw [e3, e4, e5]; exact hi⟩
        next =>
          cases h
          exact ⟨rfl, rfl, fun hi => hi⟩

theorem paso_loop_next {O : Oracle} {s s2 : State}
    (h : paso_loop O s = .ok (.next s2)) :
    s2.sim_time = s.sim_time ∧
    (∃ t k, s2.procesados = s.procesados ++ [(t, k)] ∧ t ≤ s.sim_time) ∧
    (s.producidos_m1 = s.defectos_m1 + s.caramelos_a_buffer1 →
      s2.producidos_m1 = s2.defectos_m1 + s2.caramelos_a_buffer1) := by
  simp only [paso_loop] at h
  split at h
  next =>
    split at h
    next => exact absurd h (by simp)
    next popped resto heq =>
      split at h
      next => exact absurd h (by simp)
      next hcota =>
        split at h
        next => exact absurd h (by simp)
        next s3 heqd =>
          cases h
          obtain ⟨d1, d2, d3⟩ := despachar_inv heqd
          exact ⟨d1, ⟨popped.1, popped.2.tipo, d2, not_lt.mp hcota⟩, d3⟩
  next => exact absurd h (by simp)

theorem paso_loop_stop {O : Oracle} {s s2 : State}
    (h : paso_loop O s = .ok (.stop s2)) :
    s2.sim_time = s.sim_time ∧ s2.procesados = s.procesados ∧
    s2.producidos_m1 = s.producidos_m1 ∧ s2.defectos_m1 = s.defectos_m1 ∧
    s2.caramelos_a_buffer1 = s.caramelos_a_buffer1 := by
  simp only [paso_loop] at h
  split at h
  next =>
    split at h
    next => exact absurd h (by simp)
    next popped resto heq =>
      split at h
      next =>
        cases h
        exact ⟨rfl, rfl, rfl, rfl, rfl⟩
      next =>
        split at h
        next => exact absurd h (by simp)
        next s3 heqd => exact absurd h (by simp)
  next =>
    cases h
    exact ⟨rfl, rfl, rfl, rfl, rfl⟩

theorem correr_loop_inv {O : Oracle} :
    ∀ (fuel : ℕ) (s s2 : State) (b : Bool),
    correr_loop O fuel s = .ok (s2, b) →
    s2.sim_time = s.sim_time ∧
    (s.producidos_m1 = s.defectos_m1 + s.caramelos_a_buffer1 →
      s2.producidos_m1 = s2.defectos_m1 + s2.caramelos_a_buffer1) ∧
    ((∀ q ∈ s.procesados, q.1 ≤ s.sim_time) →
      ∀ q ∈ s2.procesados, q.1 ≤ s.sim_time)
  | 0, s, s2, b, h => by
    simp only [correr_loop] at h
    cases h
    exact ⟨rfl, fun hi => hi, fun hp => hp⟩
  | fuel + 1, s, s2, b, h => by
    simp only [correr_loop] at h
    split at h
    next => exact absurd h (by simp)
    next sX heq =>
      cases h
      obtain ⟨e1, e2, e3, e4, e5⟩ := paso_loop_stop heq
      exact ⟨e1, fun hi => by rw [e3, e4, e5]; exact hi, fun hp => by rw [e2]; exact hp⟩
    next sX heq =>
      obtain ⟨p1, ⟨t, k, p2, p3⟩, p4⟩ := paso_loop_next heq
      obtain ⟨i1, i2, i3⟩ := correr_loop_inv fuel sX s2 b h
      refine ⟨i1.trans p1, fun hi => i2 (p4 hi), fun hp => ?_⟩
      rw [i1.trans p1] at *
      intro q hq
      have hall : ∀ q ∈ sX.procesados, q.1 ≤ sX.sim_time := by
        rw [p2, p1]
        intro q hq
        rcases List.mem_append.mp hq with hq2 | hq2
        · exact hp q hq2
        · rw [List.mem_singleton.mp hq2]
          exact p3
      have := i3 hall q hq
      rw [p1] at this
      exact this

theorem raiz_minima {l : List Entrada} (hp : HeapPropiedad l) :
    ∀ i, i < l.length → (l.getD 0 default).1 ≤ (l.getD i default).1 := by
  intro i
  induction i using Nat.strong_induction_on with
  | _ i ih =>
    intro hi
    rcases Nat.eq_zero_or_pos i with rfl | hipos
    · exact le_refl _
    · have hparent := hp ⟨i, hi⟩ hipos
      have hplt : (i - 1) / 2 < i :=
        Nat.lt_of_le_of_lt (Nat.div_le_self _ 2) (Nat.pred_lt (Nat.pos_iff_ne_zero.mp hipos))
      exact le_trans (ih _ hplt (lt_trans hplt hi)) hparent

theorem correr_loop_paso_next {O : Oracle} {s s2 : State} (fuel : ℕ)
    (h : paso_loop O s = .ok (.next s2)) :
    correr_loop O (fuel + 1) s = correr_loop O fuel s2 := by
  simp only [correr_loop, h]

theorem correr_loop_paso_stop {O : Oracle} {s s2 : State} (fuel : ℕ)
    (h : paso_loop O s = .ok (.stop s2)) :
    correr_loop O (fuel + 1) s = .ok (s2, true) := by
  simp only [correr_loop, h]

theorem pasoC1_1 : paso_loop oraculoBase estadoInicialBase = .ok (.next pasoC1a) := rfl

theorem pasoC1_2 : paso_loop oraculoBase pasoC1a = .ok (.next pasoC1b) := rfl

theorem pasoC1_3 : paso_loop oraculoBase pasoC1b = .ok (.next pasoC1c) := rfl

theorem pasoC1_4 : paso_loop oraculoBase pasoC1c = .ok (.next pasoC1d) := rfl

theorem pasoC1_5 : paso_loop oraculoBase pasoC1d = .ok (.stop pasoC1e) := rfl

/-! ## The claims -/

/-- **C1** — the claim is contradicted by the code (and the code by its own
test scripts, which read the non-existent attribute `caramelos_por_caja`):
`SimulacionLineaProduccion` has no accumulator and never forms batches of
`BATCH_SIZE = 50` units; single units pass to Stage 2 one at a time.  In the
run below (uniform draws `9/10`, so every unit is good; Gaussian draws `-1`,
clamped to duration `0`; `log = -10`, so arrivals are `20` apart; horizon
`5`) machine 3 seals one "caja" although only **one** good unit was ever
produced, which is impossible if every box entering Stage 2 were a composite
of exactly 50 non-defective units (that would force
`50 * cajas_selladas_m3 ≤ caramelos_a_buffer1`). -/
theorem C1_caja_de_un_solo_caramelo :
    ejecutar_simulacion oraculoBase paramsBase 6 = .ok (pasoC1e, true) ∧
    pasoC1e.cajas_selladas_m3 = 1 ∧ pasoC1e.caramelos_a_buffer1 = 1 ∧
    pasoC1e.producidos_m1 = 1 ∧
    ¬ 50 * pasoC1e.cajas_selladas_m3 ≤ pasoC1e.caramelos_a_buffer1 := by
  refine ⟨?_, rfl, rfl, rfl, by decide⟩
  calc ejecutar_simulacion oraculoBase paramsBase 6
      = correr_loop oraculoBase 6 estadoInicialBase := rfl
    _ = correr_loop oraculoBase 5 pasoC1a := correr_loop_paso_next 5 pasoC1_1
    _ = correr_loop oraculoBase 4 pasoC1b := correr_loop_paso_next 4 pasoC1_2
    _ = correr_loop oraculoBase 3 pasoC1c := correr_loop_paso_next 3 pasoC1_3
    _ = correr_loop oraculoBase 2 pasoC1d := correr_loop_paso_next 2 pasoC1_4
    _ = .ok (pasoC1e, true) := correr_loop_paso_stop 1 pasoC1_5

/-- **C2** (counterexample) — there is no monotonically increasing insertion
counter: the code pushes bare `(tiempo, evento)` tuples, so two events with
equal `scheduled_time` are ordered by comparing the `Evento` payloads, which
raises `TypeError` (`heappush` errors) instead of falling back to insertion
order. -/
theorem C2_contraejemplo_empate :
    heappush [((0 : ℚ), ⟨0, "FIN_PROCESO_MAQUINA2"⟩)]
        ((0 : ℚ), ⟨0, "FIN_PROCESO_MAQUINA1"⟩) = .error () ∧
    cmpEntrada ((0 : ℚ), ⟨0, "FIN_PROCESO_MAQUINA2"⟩)
        ((0 : ℚ), ⟨0, "FIN_PROCESO_MAQUINA1"⟩) = .error () :=
  ⟨rfl, rfl⟩

/-- **C2** (amended) — the part of the claim the code satisfies: a successful
`heappop` from a queue satisfying the binary-heap ordering on times returns
an event of minimal scheduled time (so an event with strictly smaller time is
processed first); the entry comparison succeeds exactly on distinct times and
orders by time alone, and raises `TypeError` (`Except.error`) exactly on
equal times — ties are never resolved by an insertion counter. -/
theorem C2_minimo_y_empate :
    (∀ (l : List Entrada) (x : Entrada) (resto : List Entrada),
        HeapPropiedad l → heappop l = .ok (x, resto) → ∀ y ∈ l, x.1 ≤ y.1) ∧
    (∀ a b : Entrada, cmpEntrada a b = .ok true ↔ a.1 < b.1) ∧
    (∀ a b : Entrada, cmpEntrada a b = .error () ↔ a.1 = b.1) := by
  refine ⟨?_, ?_, ?_⟩
  · intro l x resto hp h y hy
    unfold heappop at h
    split at h
    next => exact absurd h (by simp)
    next lastelt hlasteq =>
      split at h
      next hdrop =>
        cases h
        cases l with
        | nil => simp at hlasteq
        | cons a t =>
          cases t with
          | nil =>
            rw [show ([a].getLast? : Option Entrada) = some a from rfl] at hlasteq
            cases hlasteq
            rcases List.mem_singleton.mp hy with rfl
            exact le_refl _
          | cons b t2 => simp [List.dropLast] at hdrop
      next r0 rs hdrop =>
        split at h
        next => exact absurd h (by simp)
        next h2 hsift =>
          cases h
          have hne : l ≠ [] := by
            intro hnil
            rw [hnil] at hlasteq
            simp at hlasteq
          have hsplit : ((x :: rs) ++ [l.getLast hne]) = l := by
            rw [← hdrop]
            exact List.dropLast_append_getLast hne
          have hx : l.getD 0 default = x := by
            rw [← hsplit]
            rfl
          obtain ⟨i, hi, rfl⟩ := List.mem_iff_getElem.mp hy
          calc x.1 = (l.getD 0 default).1 := by rw [hx]
            _ ≤ (l.getD i default).1 := raiz_minima hp i hi
            _ = l[i].1 := congrArg Prod.fst (List.getD_eq_getElem _ _ hi)
  · intro a b
    unfold cmpEntrada
    split_ifs with h1 h2 <;> simp [h1]
  · intro a b
    unfold cmpEntrada
    split_ifs with h1 h2
    · simp [h1.ne]
    · simp [h2.ne']
    · simp [le_antisymm (not_lt.mp h2) (not_lt.mp h1)]

theorem C2_minimo_y_empate_witness :
    HeapPropiedad [((0 : ℚ), ⟨0, "FIN_PROCESO_MAQUINA1"⟩),
                   ((20 : ℚ), ⟨20, "LLEGADA_ITEM_COLA1"⟩)] ∧
    ((0 : ℚ), (⟨0, "FIN_PROCESO_MAQUINA1"⟩ : Evento)).1 ≤
      ((20 : ℚ), (⟨20, "LLEGADA_ITEM_COLA1"⟩ : Evento)).1 :=
  ⟨by decide,
   C2_minimo_y_empate.1
     [((0 : ℚ), ⟨0, "FIN_PROCESO_MAQUINA1"⟩), ((20 : ℚ), ⟨20, "LLEGADA_ITEM_COLA1"⟩)]
     ((0 : ℚ), ⟨0, "FIN_PROCESO_MAQUINA1"⟩)
     [((20 : ℚ), ⟨20, "LLEGADA_ITEM_COLA1"⟩)]
     (by decide) rfl
     ((20 : ℚ), ⟨20, "LLEGADA_ITEM_COLA1"⟩) (by simp)⟩

/-- **C5** (counterexample) — the loop does not stop *exactly* when the queue
is empty or the next event's time exceeds the horizon: it also stops as soon
as the clock has reached the horizon (`while self.reloj < self.sim_time`).
With horizon `0` the run terminates by itself (`true`) while the queue still
holds the initial arrival at time `0 ≤ 0`, which was never dispatched
(`procesados = []`). -/
theorem C5_contraejemplo :
    (ejecutar_simulacion oraculoBase paramsHorizonteCero 5).map
        (fun x => (x.1.eventos.map Prod.fst, x.1.procesados, x.2)) =
      .ok ([(0 : ℚ)], [], true) ∧
    (0 : ℚ) ≤ paramsHorizonteCero.sim_time :=
  ⟨rfl, by decide⟩

/-- **C5** (amended) — the loop stops exactly when the clock has reached the
horizon, the queue is empty, or the next popped event's time exceeds the
horizon; and no event whose scheduled time is strictly greater than `until`
is ever dispatched: every entry of the dispatch log `procesados` of any run
has time at most `sim_time`. -/
theorem C5_condicion_de_parada :
    (∀ (O : Oracle) (s s2 : State), paso_loop O s = .ok (.stop s2) →
        ¬ s.reloj < s.sim_time ∨ s.eventos = [] ∨
        ∃ x resto, heappop s.eventos = .ok (x, resto) ∧ s.sim_time < x.1) ∧
    (∀ (O : Oracle) (s : State), (¬ s.reloj < s.sim_time ∨ s.eventos = []) →
        paso_loop O s = .ok (.stop s)) ∧
    (∀ (O : Oracle) (p : Params) (fuel : ℕ) (s : State) (b : Bool),
        ejecutar_simulacion O p fuel = .ok (s, b) →
        ∀ q ∈ s.procesados, q.1 ≤ p.sim_time) := by
  refine ⟨?_, ?_, ?_⟩
  · intro O s s2 h
    simp only [paso_loop] at h
    split at h
    next =>
      split at h
      next => exact absurd h (by simp)
      next popped resto heq =>
        split at h
        next hlt =>
          exact Or.inr (Or.inr ⟨popped, resto, heq, hlt⟩)
        next =>
          split at h
          next => exact absurd h (by simp)
          next s3 heqd => exact absurd h (by simp)
    next hcond =>
      rcases not_and_or.mp hcond with hc | hc
      · exact Or.inl hc
      · exact Or.inr (Or.inl (not_not.mp hc))
  · intro O s h
    have hcond : ¬ (s.reloj < s.sim_time ∧ s.eventos ≠ []) := by
      rcases h with h | h
      · exact fun hc => h hc.1
      · exact fun hc => hc.2 h
    simp only [paso_loop]
    rw [if_neg hcond]
  · intro O p fuel s b h
    unfold ejecutar_simulacion at h
    split at h
    next => exact absurd h (by simp)
    next s0 heq =>
      obtain ⟨h0, -, rfl⟩ := programar_evento_ok heq
      exact (correr_loop_inv fuel _ s b h).2.2 (by intro q hq; simp [inicial] at hq)

theorem C5_condicion_de_parada_witness :
    paso_loop oraculoBase (inicial paramsHorizonteCero) =
      .ok (.stop (inicial paramsHorizonteCero)) :=
  C5_condicion_de_parada.2.1 oraculoBase (inicial paramsHorizonteCero)
    (Or.inl (by decide))

/-- On every Stage3Done event of `event_driven_simulation.py` the recorded
system time is the current clock minus the sealed box's system-entry
timestamp `tiempo_llegada_sistema`, which is set at creation time and never
mutated by any handler (only `tiempo_llegada_cola_actual` is restamped).
In this code a "caja" is a single unit, so that timestamp is the (earliest
and only) constituent unit's arrival time. -/
theorem fin3_tiempo_registrado {O : Oracle} {s s2 : State} {it : Item}
    (hit : s.item_en_m3 = some it)
    (h : manejar_fin_proceso_maquina3 O s = .ok s2) :
    s2.tiempos_sistema_caja =
      s.tiempos_sistema_caja ++ [s.reloj - it.tiempo_llegada_sistema] := by
  simp only [manejar_fin_proceso_maquina3, generar_normal_estado] at h
  split at h
  next => exact absurd h (by simp)
  next it2 hit2 =>
    rw [hit] at hit2
    cases hit2
    split at h
    next e hmid => exact absurd h (by simp)
    next s3 hmid =>
      split at h
      next => exact absurd h (by simp)
      next s4 heq4 =>
        cases h
        have T34 := (desbloquear_m2_preserva heq4).2
        have T03 : s3.tiempos_sistema_caja =
            s.tiempos_sistema_caja ++ [s.reloj - it.tiempo_llegada_sistema] := by
          split at hmid
          next it3 resto hcola =>
            obtain ⟨h6, -, rfl⟩ := programar_evento_ok hmid
            rfl
          next =>
            cases hmid
            rfl
        exact T34.trans T03

/-- **C3 counterexample** — at the claim's second cited site, `maquina3` in
`src/index.py`, the recorded "system time" is *not* the clock minus the
earliest constituent unit's system-entry timestamp: the box record stores
only its Buffer2-entry time, and the sealing step records
`env.now - entrada_buffer2`.  Concretely, for a box put into Buffer2 at time
`10` and sealed at time `12`, the code records `2`, while for a constituent
unit that entered the system at time `0` the claim requires `12 - 0 = 12`. -/
theorem C3_contraejemplo_index :
    (maquina2_caja 0 10).entrada_buffer2 = 10 ∧
    (maquina3_sellar 12 (maquina2_caja 0 10)
        { cajas_selladas_m3 := 0, tiempos_sistema_caja := [] }).tiempos_sistema_caja =
      [(2 : ℚ)] ∧
    (12 : ℚ) - 0 = 12 ∧ (2 : ℚ) ≠ 12 :=
  ⟨rfl, by decide, by decide, by decide⟩

/-- **C3** (amended) — the two cited sites record different quantities.  The
event-driven handler `_manejar_fin_proceso_maquina3` records the clock minus
the sealed unit's system-entry timestamp (the earliest and only constituent's
arrival time), as the claim states.  But `maquina3` in `src/index.py` records
the clock minus the box's *Buffer2-entry* time (`entrada_buffer2`, the only
timestamp the box record carries), and that value differs from the claimed
one whenever the earliest constituent entered the system strictly before the
box entered Buffer2. -/
theorem C3_tiempo_registrado :
    (∀ (O : Oracle) (s s2 : State) (it : Item),
        s.item_en_m3 = some it →
        manejar_fin_proceso_maquina3 O s = .ok s2 →
        s2.tiempos_sistema_caja =
          s.tiempos_sistema_caja ++ [s.reloj - it.tiempo_llegada_sistema]) ∧
    (∀ (now : ℚ) (caja : CajaIndex) (st : StatsIndex),
        (maquina3_sellar now caja st).tiempos_sistema_caja =
          st.tiempos_sistema_caja ++ [now - caja.entrada_buffer2] ∧
        (maquina3_sellar now caja st).cajas_selladas_m3 = st.cajas_selladas_m3 + 1) ∧
    (∀ (now e : ℚ) (caja : CajaIndex),
        e < caja.entrada_buffer2 → now - caja.entrada_buffer2 ≠ now - e) := by
  refine ⟨?_, ?_, ?_⟩
  · intro O s s2 it hit h
    exact fin3_tiempo_registrado hit h
  · intro now caja st
    exact ⟨rfl, rfl⟩
  · intro now e caja hlt heq
    have he : caja.entrada_buffer2 = e := by linarith
    exact absurd he (ne_of_gt hlt)

theorem C3_tiempo_registrado_witness :
    estadoTrasFinM3.tiempos_sistema_caja =
      estadoFinM3.tiempos_sistema_caja ++
        [estadoFinM3.reloj -
          (Item.tiempo_llegada_sistema
            { tiempo_llegada_sistema := 3, tiempo_llegada_cola_actual := 5 })] ∧
    (maquina3_sellar 12 (maquina2_caja 0 10)
        { cajas_selladas_m3 := 0, tiempos_sistema_caja := [] }).tiempos_sistema_caja =
      [(12 : ℚ) - (maquina2_caja 0 10).entrada_buffer2] ∧
    (0 : ℚ) < (maquina2_caja 0 10).entrada_buffer2 ∧
    (12 : ℚ) - (maquina2_caja 0 10).entrada_buffer2 ≠ (12 : ℚ) - 0 :=
  ⟨C3_tiempo_registrado.1 oraculoBase estadoFinM3 estadoTrasFinM3
      { tiempo_llegada_sistema := 3, tiempo_llegada_cola_actual := 5 } rfl rfl,
   (C3_tiempo_registrado.2.1 12 (maquina2_caja 0 10)
      { cajas_selladas_m3 := 0, tiempos_sistema_caja := [] }).1,
   by decide,
   C3_tiempo_registrado.2.2 12 0 (maquina2_caja 0 10) (by decide)⟩

/-- **C4** (counterexample) — the defect convention is *not* applied
uniformly, and it is not `uniform() < defect_prob` everywhere: with the draw
equal to `defect_prob` (both `1/2`), `maquina1` in `src/index.py`
(`random() > defect_prob` means good) classifies the unit as defective even
though `u < p` is false, while `_manejar_fin_proceso_maquina1` in
`src/event_driven_simulation.py` (`random() >= defect_prob` means good)
counts the same draw as a good unit. -/
theorem C4_contraejemplo_convencion :
    index_es_bueno (1/2) (1/2) = false ∧ ¬ ((1 : ℚ)/2 < 1/2) ∧
    (manejar_fin_proceso_maquina1 oraculoMitad estadoFinM1).map
        (fun x => (x.defectos_m1, x.caramelos_a_buffer1)) = .ok (0, 1) :=
  ⟨by decide, by decide, rfl⟩

/-- **C4** (amended) — each site applies a fixed convention, but they differ:
the event-driven handler classifies a unit defective exactly when
`uniform() < defect_prob` (as the claim states), while `src/index.py`
classifies it defective exactly when `uniform() ≤ defect_prob`; the two
conventions agree except when the draw equals `defect_prob` exactly. -/
theorem C4_convencion_defecto :
    (∀ (O : Oracle) (s s2 : State) (it : Item), s.item_en_m1 = some it →
        manejar_fin_proceso_maquina1 O s = .ok s2 →
        ((O.rand s.nRand < s.defect_prob →
            s2.defectos_m1 = s.defectos_m1 + 1 ∧
            s2.caramelos_a_buffer1 = s.caramelos_a_buffer1) ∧
         (s.defect_prob ≤ O.rand s.nRand →
            s2.defectos_m1 = s.defectos_m1 ∧
            s2.caramelos_a_buffer1 = s.caramelos_a_buffer1 + 1))) ∧
    (∀ u p : ℚ, driven_es_bueno u p = false ↔ u < p) ∧
    (∀ u p : ℚ, index_es_bueno u p = false ↔ u ≤ p) ∧
    (∀ u p : ℚ, u ≠ p → driven_es_bueno u p = index_es_bueno u p) := by
  refine ⟨?_, ?_, ?_, ?_⟩
  · intro O s s2 it hit h
    simp only [manejar_fin_proceso_maquina1, generar_normal_estado] at h
    split at h
    next => exact absurd h (by simp)
    next it2 hit2 =>
      split at h
      next hgood =>
        refine ⟨fun hlt => absurd hlt (not_lt.mpr hgood), fun _ => ?_⟩
        split at h
        next =>
          split at h
          next e hmid => exact absurd h (by simp)
          next s3 hmid =>
            obtain ⟨-, -, -, e4, e5⟩ := tomar_siguiente_m1_preserva h
            split at hmid
            next =>
              split at hmid
              next =>
                cases hmid
                exact ⟨e4, e5⟩
              next it3 resto hcola =>
                split at hmid
                next => exact absurd hmid (by simp)
                next s4 heq =>
                  obtain ⟨h4, -, rfl⟩ := programar_evento_ok heq
                  cases hmid
                  exact ⟨e4, e5⟩
            next =>
              cases hmid
              exact ⟨e4, e5⟩
        next =>
          cases h
          exact ⟨rfl, rfl⟩
      next hdef =>
        refine ⟨fun _ => ?_, fun hge => absurd hge hdef⟩
        obtain ⟨-, -, -, e4, e5⟩ := tomar_siguiente_m1_preserva h
        exact ⟨e4, e5⟩
  · intro u p
    simp [driven_es_bueno, not_le]
  · intro u p
    simp [index_es_bueno, not_lt]
  · intro u p hne
    rcases hne.lt_or_lt with hlt | hlt
    · have h1 : ¬ p ≤ u := not_le.mpr hlt
      have h2 : ¬ p < u := not_lt.mpr hlt.le
      simp [driven_es_bueno, index_es_bueno, h1, h2]
    · have h1 : p ≤ u := hlt.le
      have h2 : p < u := hlt
      simp [driven_es_bueno, index_es_bueno, h1, h2]

theorem C4_convencion_defecto_witness :
    estadoTrasFinM1.defectos_m1 = estadoFinM1.defectos_m1 ∧
    estadoTrasFinM1.caramelos_a_buffer1 = estadoFinM1.caramelos_a_buffer1 + 1 :=
  (C4_convencion_defecto.1 oraculoBase estadoFinM1 estadoTrasFinM1
      { tiempo_llegada_sistema := 0, tiempo_llegada_cola_actual := 0 }
      rfl rfl).2 (by decide)

/-- **C6** (counterexample) — an arriving unit does *not* always start
processing immediately when Stage 1 is idle: the code also requires queue 2
to be below capacity.  With `buffer2_capacity = 0`, the initial arrival finds
machine 1 `OCIOSA` and yet the unit is enqueued on queue 1 instead; no
`FIN_PROCESO_MAQUINA1` is ever scheduled (the log holds only the two
arrivals), and machine 1 stays idle. -/
theorem C6_contraejemplo_ociosa_sin_inicio :
    (inicial paramsCola2SinCapacidad).estado_m1 = EstadoMaquina.OCIOSA ∧
    (ejecutar_simulacion oraculoBase paramsCola2SinCapacidad 1).map
        (fun x => (x.1.estado_m1, x.1.item_en_m1, x.1.cola1.length,
                   x.1.programados.map Prod.snd, x.2)) =
      .ok (EstadoMaquina.OCIOSA, none, 1,
           ["LLEGADA_ITEM_COLA1", "LLEGADA_ITEM_COLA1"], false) :=
  ⟨rfl, rfl⟩

/-- **C6** (amended) — when Stage 1 is idle *and* queue 2 is below capacity,
the arrival handler does start the new unit immediately: machine 1 goes
`PROCESANDO` holding the freshly created unit, and a `FIN_PROCESO_MAQUINA1`
event is scheduled at `now + max 0 (gauss draw)` — the Normal draw clamped to
be at least `0` — right after the next arrival. -/
theorem C6_inicio_inmediato {O : Oracle} {s s2 : State}
    (hidle : s.estado_m1 = EstadoMaquina.OCIOSA)
    (hroom : (s.cola2.length : ℤ) < s.buffer2_capacity)
    (h : manejar_llegada_item_cola1 O s = .ok s2) :
    s2.estado_m1 = EstadoMaquina.PROCESANDO ∧
    s2.item_en_m1 = some { tiempo_llegada_sistema := s.reloj,
                           tiempo_llegada_cola_actual := s.reloj,
                           id := s.producidos_m1 } ∧
    (0 : ℚ) ≤ max 0 (O.gauss s.nGauss s.m1_media_tiempo s.m1_std_dev_tiempo) ∧
    s2.programados = s.programados ++
      [(s.reloj + (generar_tiempo_exponencial O s 2).1, "LLEGADA_ITEM_COLA1"),
       (s.reloj + max 0 (O.gauss s.nGauss s.m1_media_tiempo s.m1_std_dev_tiempo),
        "FIN_PROCESO_MAQUINA1")] := by
  simp only [manejar_llegada_item_cola1, generar_exponencial_estado,
    generar_normal_estado] at h
  split at h
  next => exact absurd h (by simp)
  next s1 heq =>
    obtain ⟨h2, -, rfl⟩ := programar_evento_ok heq
    split at h
    next hcond =>
      split at h
      next => exact absurd h (by simp)
      next s3 heq2 =>
        obtain ⟨h3, -, rfl⟩ := programar_evento_ok heq2
        cases h
        refine ⟨rfl, rfl, le_max_left 0 _, ?_⟩
        simp [registrar_estados, generar_normal_valor, List.append_assoc]
    next hcond =>
      exact absurd ⟨hidle, hroom⟩ hcond

theorem C6_inicio_inmediato_witness :
    estadoTrasLlegadaBase.estado_m1 = EstadoMaquina.PROCESANDO ∧
    estadoTrasLlegadaBase.item_en_m1 =
      some { tiempo_llegada_sistema := (inicial paramsBase).reloj,
             tiempo_llegada_cola_actual := (inicial paramsBase).reloj,
             id := (inicial paramsBase).producidos_m1 } ∧
    (0 : ℚ) ≤ max 0 (oraculoBase.gauss (inicial paramsBase).nGauss
      (inicial paramsBase).m1_media_tiempo (inicial paramsBase).m1_std_dev_tiempo) ∧
    estadoTrasLlegadaBase.programados = (inicial paramsBase).programados ++
      [((inicial paramsBase).reloj +
          (generar_tiempo_exponencial oraculoBase (inicial paramsBase) 2).1,
        "LLEGADA_ITEM_COLA1"),
       ((inicial paramsBase).reloj + max 0 (oraculoBase.gauss (inicial paramsBase).nGauss
          (inicial paramsBase).m1_media_tiempo (inicial paramsBase).m1_std_dev_tiempo),
        "FIN_PROCESO_MAQUINA1")] :=
  C6_inicio_inmediato rfl (by decide) rfl

/-- **C7** (confirmed) — when the arriving unit cannot start service
immediately (machine 1 busy, or queue 2 at capacity blocking an immediate
start) and queue 1 is at (or beyond, for malformed capacities) its capacity,
the unit is discarded: the lost-unit counter increments by exactly one,
queue 1 is unchanged, and no exception is raised (the handler returns
normally).  With `buffer1_capacity = 0` the capacity hypothesis holds for
every arrival while machine 1 is busy, so every such arrival is lost. -/
theorem C7_perdida_en_cola1_llena {O : Oracle} {s s2 : State}
    (hno : ¬ (s.estado_m1 = EstadoMaquina.OCIOSA ∧
              (s.cola2.length : ℤ) < s.buffer2_capacity))
    (hcap : s.buffer1_capacity ≤ (s.cola1.length : ℤ))
    (h : manejar_llegada_item_cola1 O s = .ok s2) :
    s2.items_perdidos_buffer1 = s.items_perdidos_buffer1 + 1 ∧
    s2.cola1 = s.cola1 ∧ s2.cola2 = s.cola2 ∧ s2.estado_m1 = s.estado_m1 := by
  simp only [manejar_llegada_item_cola1, generar_exponencial_estado,
    generar_normal_estado] at h
  split at h
  next => exact absurd h (by simp)
  next s1 heq =>
    obtain ⟨h2, -, rfl⟩ := programar_evento_ok heq
    split at h
    next hcond => exact absurd hcond hno
    next =>
      split at h
      next hroom => exact absurd hroom (not_lt.mpr hcap)
      next =>
        cases h
        exact ⟨rfl, rfl, rfl, rfl⟩

theorem C7_perdida_en_cola1_llena_witness :
    estadoTrasPerdida.items_perdidos_buffer1 =
      estadoCola1Llena.items_perdidos_buffer1 + 1 ∧
    estadoTrasPerdida.cola1 = estadoCola1Llena.cola1 ∧
    estadoTrasPerdida.cola2 = estadoCola1Llena.cola2 ∧
    estadoTrasPerdida.estado_m1 = estadoCola1Llena.estado_m1 :=
  C7_perdida_en_cola1_llena (by decide) (by decide)
    (rfl : manejar_llegada_item_cola1 oraculoBase estadoCola1Llena =
      .ok estadoTrasPerdida)

theorem area_fold : ∀ (l : List (ℚ × ℕ)),
    ((l.zip l.tail).foldr (fun q acc => (q.1.2 : ℚ) * (q.2.1 - q.1.1) + acc) 0) =
      area_total l
  | [] => rfl
  | [_] => rfl
  | (t1, w1) :: (t2, w2) :: rest => by
    have ih := area_fold ((t2, w2) :: rest)
    simp only [List.tail_cons, List.zip_cons_cons, List.foldr_cons, area_total] at ih ⊢
    rw [ih]

theorem area_append : ∀ (l : List (ℚ × ℕ)) (tl : ℚ) (wl : ℕ),
    l.getLast? = some (tl, wl) → ∀ (t : ℚ) (w : ℕ),
    area_total (l ++ [(t, w)]) = area_total l + (wl : ℚ) * (t - tl)
  | [], tl, wl => by
    intro hlast
    simp at hlast
  | [(t1, w1)], tl, wl => by
    intro hlast t w
    rw [show ([(t1, w1)].getLast? : Option (ℚ × ℕ)) = some (t1, w1) from rfl] at hlast
    cases hlast
    show (w1 : ℚ) * (t - t1) + 0 = 0 + (w1 : ℚ) * (t - t1)
    ring
  | (t1, w1) :: (t2, w2) :: rest2, tl, wl => by
    intro hlast t w
    have hlast2 : ((t2, w2) :: rest2).getLast? = some (tl, wl) := by
      rwa [List.getLast?_cons_cons] at hlast
    have e1 : area_total (((t1, w1) :: (t2, w2) :: rest2) ++ [(t, w)]) =
        (w1 : ℚ) * (t2 - t1) + area_total (((t2, w2) :: rest2) ++ [(t, w)]) := rfl
    have e2 : area_total ((t1, w1) :: (t2, w2) :: rest2) =
        (w1 : ℚ) * (t2 - t1) + area_total ((t2, w2) :: rest2) := rfl
    rw [e1, e2, area_append ((t2, w2) :: rest2) tl wl hlast2 t w]
    ring

theorem weighted_sum_eq : ∀ (l : List (ℚ × ℕ)) (tl : ℚ) (wl : ℕ) (T : ℚ),
    l.getLast? = some (tl, wl) →
    List.Chain' (fun a b : ℚ × ℕ => a.1 ≤ b.1) l → tl ≤ T →
    weighted_sum_index l T = area_total (l ++ [(T, wl)])
  | [], tl, wl, T => by
    intro hlast
    simp at hlast
  | [(t1, w1)], tl, wl, T => by
    intro hlast hchain hT
    rw [show ([(t1, w1)].getLast? : Option (ℚ × ℕ)) = some (t1, w1) from rfl] at hlast
    cases hlast
    simp only [weighted_sum_index, area_total]
    rw [if_pos hT, if_neg (by linarith : ¬ T - t1 < 0)]
  | (t1, w1) :: (t2, w2) :: rest2, tl, wl, T => by
    intro hlast hchain hT
    have hlast2 : ((t2, w2) :: rest2).getLast? = some (tl, wl) := by
      rwa [List.getLast?_cons_cons] at hlast
    obtain ⟨h12, hchain2⟩ := List.chain'_cons.mp hchain
    have ih := weighted_sum_eq ((t2, w2) :: rest2) tl wl T hlast2 hchain2 hT
    simp only [weighted_sum_index] at ih ⊢
    rw [if_neg (by simp only [] at h12; linarith : ¬ t2 - t1 < 0), ih]
    rfl

theorem paso_loop_no_stop {O : Oracle} {s : State} {pq : Entrada} {resto : List Entrada}
    (hc : s.reloj < s.sim_time) (hne : s.eventos ≠ [])
    (hpop : heappop s.eventos = .ok (pq, resto)) (hle : pq.1 ≤ s.sim_time) :
    ∀ s2, paso_loop O s ≠ .ok (.stop s2) := by
  intro s2 hcontra
  simp only [paso_loop] at hcontra
  rw [if_pos ⟨hc, hne⟩] at hcontra
  simp only [hpop] at hcontra
  rw [if_neg (not_lt.mpr hle)] at hcontra
  split at hcontra
  next => exact absurd hcontra (by simp)
  next => exact absurd hcontra (by simp)

/-- **C8** — confirmed: on every nonempty, chronologically ordered occupancy
series whose last sample lies strictly before the positive horizon `T`, both
reported averages — `calcular_wip_promedio` in `event_driven_simulation.py`
and `calculate_time_weighted_average` in `index.py` — equal the spec's
formula `promedio_ponderado_spec`: extend the final sample's level to `T`,
sum `level1 * (t2 - t1)` over consecutive samples, and divide by `T`. -/
theorem C8_promedio_ponderado (l : List (ℚ × ℕ)) (tl : ℚ) (wl : ℕ) (T : ℚ)
    (hlast : l.getLast? = some (tl, wl))
    (hchain : List.Chain' (fun a b : ℚ × ℕ => a.1 ≤ b.1) l)
    (htl : tl < T) (hT : 0 < T) :
    calcular_wip_promedio l T = promedio_ponderado_spec l T ∧
    calculate_time_weighted_average l T = promedio_ponderado_spec l T := by
  have hnil : l ≠ [] := fun h => by rw [h] at hlast; exact Option.noConfusion hlast
  have hspec : promedio_ponderado_spec l T = area_total (l ++ [(T, wl)]) / T := by
    simp only [promedio_ponderado_spec, hlast]
    rw [area_fold]
  constructor
  · rw [hspec]
    simp only [calcular_wip_promedio, hlast]
    rw [if_neg (ne_of_gt hT), if_pos htl, if_pos hT]
  · rw [hspec]
    simp only [calculate_time_weighted_average]
    rw [if_neg (by push_neg; exact ⟨hnil, ne_of_gt hT⟩), if_pos hT,
        weighted_sum_eq l tl wl T hlast hchain (le_of_lt htl)]

theorem C8_promedio_ponderado_witness :
    ([((0:ℚ), (0:ℕ)), (1, 2), (3, 1)].getLast? = some ((3:ℚ), (1:ℕ))) ∧
    List.Chain' (fun a b : ℚ × ℕ => a.1 ≤ b.1) [((0:ℚ), (0:ℕ)), (1, 2), (3, 1)] ∧
    (3:ℚ) < 4 ∧ (0:ℚ) < 4 ∧
    (calcular_wip_promedio [((0:ℚ), (0:ℕ)), (1, 2), (3, 1)] 4 =
       promedio_ponderado_spec [((0:ℚ), (0:ℕ)), (1, 2), (3, 1)] 4 ∧
     calculate_time_weighted_average [((0:ℚ), (0:ℕ)), (1, 2), (3, 1)] 4 =
       promedio_ponderado_spec [((0:ℚ), (0:ℕ)), (1, 2), (3, 1)] 4) :=
  ⟨rfl,
   List.chain'_cons.mpr ⟨by decide,
     List.chain'_cons.mpr ⟨by decide, List.chain'_singleton _⟩⟩,
   by decide, by decide,
   C8_promedio_ponderado [((0:ℚ), (0:ℕ)), (1, 2), (3, 1)] 3 1 4 rfl
     (List.chain'_cons.mpr ⟨by decide,
       List.chain'_cons.mpr ⟨by decide, List.chain'_singleton _⟩⟩)
     (by decide) (by decide)⟩

/-- **C9 counterexample** — the claim says an invalid configuration (here a
zero machine-1 mean processing time and a negative queue-1 capacity) is
refused at construction time, before any event is processed.  In the code,
construction succeeds, the invalid values are stored verbatim, and the first
loop iteration pops and dispatches the initial arrival normally (the ghost
log `procesados` records it). -/
theorem C9_configuracion_invalida_corre :
    paramsInvalidos.m1_media_tiempo = 0 ∧ paramsInvalidos.buffer1_capacity = -5 ∧
    (inicial paramsInvalidos).m1_media_tiempo = 0 ∧
    (inicial paramsInvalidos).buffer1_capacity = -5 ∧
    paso_loop oraculoBase estadoArranqueInvalido = .ok (.next estadoTrasPasoInvalido) ∧
    estadoTrasPasoInvalido.procesados = [((0:ℚ), "LLEGADA_ITEM_COLA1")] :=
  ⟨rfl, rfl, rfl, rfl, rfl, rfl⟩

/-- **C9** (amended) — `SimulacionLineaProduccion.__init__` performs no
validation: for *every* parameter set, valid or not, construction succeeds
and stores the parameters verbatim; and whenever the horizon is positive,
the run does not stop at its first iteration — the initial arrival event is
popped and dispatched (the first `paso_loop` never yields `stop`), so no
configuration is ever refused before events are processed. -/
theorem C9_sin_validacion (p : Params) :
    ((inicial p).sim_time = p.sim_time ∧
     (inicial p).buffer1_capacity = p.buffer1_capacity ∧
     (inicial p).buffer2_capacity = p.buffer2_capacity ∧
     (inicial p).m1_media_tiempo = p.m1_media_tiempo ∧
     (inicial p).m2_media_tiempo = p.m2_media_tiempo ∧
     (inicial p).m3_media_tiempo = p.m3_media_tiempo ∧
     (inicial p).defect_prob = p.defect_prob) ∧
    (0 < p.sim_time →
      ∀ (O : Oracle) (s0 : State),
        programar_evento (inicial p) 0 "LLEGADA_ITEM_COLA1" = .ok s0 →
        ∀ s2, paso_loop O s0 ≠ .ok (.stop s2)) := by
  refine ⟨⟨rfl, rfl, rfl, rfl, rfl, rfl, rfl⟩, ?_⟩
  intro hpos O s0 h s2
  obtain ⟨h2, hpush, rfl⟩ := programar_evento_ok h
  rw [show heappush (inicial p).eventos ((0:ℚ), ⟨0, "LLEGADA_ITEM_COLA1"⟩) =
      .ok [((0:ℚ), (⟨0, "LLEGADA_ITEM_COLA1"⟩ : Evento))] from rfl] at hpush
  cases hpush
  apply @paso_loop_no_stop O _ ((0:ℚ), (⟨0, "LLEGADA_ITEM_COLA1"⟩ : Evento)) ([] : List Entrada)
  · exact hpos
  · exact List.cons_ne_nil _ _
  · exact rfl
  · exact le_of_lt hpos

theorem C9_sin_validacion_witness :
    (inicial paramsInvalidos).m1_media_tiempo = 0 ∧
    (inicial paramsInvalidos).buffer1_capacity = -5 ∧
    (0:ℚ) < paramsInvalidos.sim_time ∧
    programar_evento (inicial paramsInvalidos) 0 "LLEGADA_ITEM_COLA1" =
      .ok estadoArranqueInvalido ∧
    ∀ s2, paso_loop oraculoMitad estadoArranqueInvalido ≠ .ok (.stop s2) :=
  ⟨rfl, rfl, by decide, rfl,
   (C9_sin_validacion paramsInvalidos).2 (by decide) oraculoMitad
     estadoArranqueInvalido rfl⟩

/-- **C10** — confirmed: the counter equality
`producidos_m1 = defectos_m1 + caramelos_a_buffer1` holds in the final state
of every run (it holds initially and every dispatched event preserves it);
the machine-1 completion handler counts each finished unit as exactly one of
defective or good (`producidos_m1` grows by one and
`defectos_m1 + caramelos_a_buffer1` grows by one, also when the good unit is
retained by a blocked machine 1); and no other handler modifies any of the
three counters. -/
theorem C10_conservacion_contadores :
    (∀ (O : Oracle) (p : Params) (fuel : ℕ) (s2 : State) (b : Bool),
      ejecutar_simulacion O p fuel = .ok (s2, b) →
      s2.producidos_m1 = s2.defectos_m1 + s2.caramelos_a_buffer1) ∧
    (∀ (O : Oracle) (s s2 : State),
      manejar_fin_proceso_maquina1 O s = .ok s2 →
      s2.producidos_m1 = s.producidos_m1 + 1 ∧
      s2.defectos_m1 + s2.caramelos_a_buffer1 =
        s.defectos_m1 + s.caramelos_a_buffer1 + 1) ∧
    (∀ (O : Oracle) (s s2 : State),
      manejar_llegada_item_cola1 O s = .ok s2 →
      s2.producidos_m1 = s.producidos_m1 ∧ s2.defectos_m1 = s.defectos_m1 ∧
      s2.caramelos_a_buffer1 = s.caramelos_a_buffer1) ∧
    (∀ (O : Oracle) (s s2 : State),
      manejar_fin_proceso_maquina2 O s = .ok s2 →
      s2.producidos_m1 = s.producidos_m1 ∧ s2.defectos_m1 = s.defectos_m1 ∧
      s2.caramelos_a_buffer1 = s.caramelos_a_buffer1) ∧
    (∀ (O : Oracle) (s s2 : State),
      manejar_fin_proceso_maquina3 O s = .ok s2 →
      s2.producidos_m1 = s.producidos_m1 ∧ s2.defectos_m1 = s.defectos_m1 ∧
      s2.caramelos_a_buffer1 = s.caramelos_a_buffer1) := by
  refine ⟨?_, ?_, ?_, ?_, ?_⟩
  · intro O p fuel s2 b h
    simp only [ejecutar_simulacion] at h
    split at h
    next => exact absurd h (by simp)
    next s0 heq =>
      obtain ⟨h2, -, rfl⟩ := programar_evento_ok heq
      exact (correr_loop_inv fuel _ s2 b h).2.1 rfl
  · intro O s s2 h
    obtain ⟨-, -, e3, e4⟩ := fin1_contadores h
    exact ⟨e3, e4⟩
  · intro O s s2 h
    obtain ⟨-, -, e3, e4, e5⟩ := llegada_preserva h
    exact ⟨e3, e4, e5⟩
  · intro O s s2 h
    obtain ⟨-, -, e3, e4, e5⟩ := fin2_preserva h
    exact ⟨e3, e4, e5⟩
  · intro O s s2 h
    obtain ⟨-, -, e3, e4, e5⟩ := fin3_preserva h
    exact ⟨e3, e4, e5⟩

theorem C10_conservacion_contadores_witness :
    ejecutar_simulacion oraculoMitad paramsBase 0 = .ok (estadoInicialBase, false) ∧
    estadoInicialBase.producidos_m1 =
      estadoInicialBase.defectos_m1 + estadoInicialBase.caramelos_a_buffer1 :=
  ⟨rfl, C10_conservacion_contadores.1 oraculoMitad paramsBase 0
     estadoInicialBase false rfl⟩

end ProdLine
